import Mathlib

/-!
Verification of the workload-discovery discovery backend.

This file gives a shallow embedding, in Lean, of the parts of the discovery
backend that the specification makes checkable claims about: the delta engine
(`getResourceChanges`), the persistence reconciliation
(`processPersistenceFailures`, `persistResourcesAndRelationships`), the
dual-store resource processor (`createResourceProcessor`), the adaptive
GraphQL paginator (`createPaginator`), environment-variable relationship
inference (`createEnvironmentVariableRelationships`), the save projection
(`createSaveObject` and `createProperties`), tag synthesis (`createTags`),
and the event-bus relationship handler.

JavaScript `Map` objects are modelled as insertion-ordered association
lists; JavaScript objects appearing as open records are modelled either as
Lean structures (when the JS code only touches a fixed field set) or as a
small JSON-like value type (for the save projection, which iterates over
`Object.entries`).  Fallible code paths (property access on `undefined`,
method calls on non-arrays) are modelled with `Option`.
-/

namespace WD

/-! ## JavaScript Map model -/

/-- A JavaScript `Map` with string keys: an insertion-ordered association
list.  Keys are unique by construction when built through `jsSet`. -/
abbrev JsMap (α : Type) := List (String × α)

/-- `m.get(k)`: the value stored at key `k`, if any. -/
def jsGet {α : Type} (m : JsMap α) (k : String) : Option α :=
  (m.find? (fun p => p.1 == k)).map (·.2)

/-- `m.has(k)`. -/
def jsHas {α : Type} (m : JsMap α) (k : String) : Bool :=
  (jsGet m k).isSome

/-- `m.set(k, v)`: overwrite in place when the key exists, else append. -/
def jsSet {α : Type} (m : JsMap α) (k : String) (v : α) : JsMap α :=
  if jsHas m k then m.map (fun p => if p.1 == k then (k, v) else p)
  else m ++ [(k, v)]

/-- `m.delete(k)`. -/
def jsDelete {α : Type} (m : JsMap α) (k : String) : JsMap α :=
  m.filter (fun p => p.1 != k)

/-- `Array.from(m.values())`. -/
def jsValues {α : Type} (m : JsMap α) : List α :=
  m.map (·.2)

/-- `Array.from(m.keys())`. -/
def jsKeys {α : Type} (m : JsMap α) : List String :=
  m.map (·.1)

/-- Well-formedness of a map keyed by resource id: keys are unique and every
entry stores a value whose id is its key (all the maps built by the source
with `new Map(xs.map(x => [x.id, x]))` satisfy this). -/
def mapKeyedBy {α : Type} (m : JsMap α) (getId : α → String) : Prop :=
  (jsKeys m).Nodup ∧ ∀ p ∈ m, getId p.2 = p.1

instance {α : Type} (m : JsMap α) (getId : α → String) :
    Decidable (mapKeyedBy m getId) := by
  unfold mapKeyedBy
  exact instDecidableAnd

/-! ## Adaptive paginator (appSync.mjs, createPaginator)

The generator in `createPaginator` maintains mutable `pageSize`, `start`
and `end` variables.  Each loop iteration issues the request
`{start, end}`; on success it advances (`start += pageSize`, resets
`pageSize` to the configured default, `end += pageSize`), and on a
resolver-code-size or payload-too-large error it halves the page size and
replays the same window (`pageSize = floor(pageSize / 2)`,
`end = start + pageSize`). -/

/-- The mutable state of the paginator generator. -/
structure PaginatorState where
  pageSize : Nat
  start : Nat
  endIdx : Nat
deriving DecidableEq

/-- Initial paginator state: `pageSize = PAGE_SIZE, start = 0, end = pageSize`. -/
def paginatorInit (PAGE_SIZE : Nat) : PaginatorState :=
  { pageSize := PAGE_SIZE, start := 0, endIdx := PAGE_SIZE }

/-- The pagination window `{start, end}` sent with the current request. -/
def paginatorRequest (s : PaginatorState) : Nat × Nat :=
  (s.start, s.endIdx)

/-- State transition after a successful fetch:
`start = start + pageSize; pageSize = PAGE_SIZE; end = end + pageSize`. -/
def paginatorOnSuccess (PAGE_SIZE : Nat) (s : PaginatorState) : PaginatorState :=
  let start := s.start + s.pageSize
  let pageSize := PAGE_SIZE
  let endIdx := s.endIdx + pageSize
  { pageSize := pageSize, start := start, endIdx := endIdx }

/-- State transition after a payload-too-large or resolver-code-size error:
`pageSize = floor(pageSize / 2); end = start + pageSize` (same `start`). -/
def paginatorOnPayloadTooLarge (s : PaginatorState) : PaginatorState :=
  let pageSize := s.pageSize / 2
  { pageSize := pageSize, start := s.start, endIdx := s.start + pageSize }

/-- The sequence of request windows issued for a given sequence of fetch
outcomes (`true` = success, `false` = payload too large), starting from a
given state.  Each iteration issues one request and then transitions. -/
def paginatorRequestsFrom (PAGE_SIZE : Nat) : List Bool → PaginatorState → List (Nat × Nat)
  | [], _ => []
  | outcome :: rest, s =>
      paginatorRequest s ::
        paginatorRequestsFrom PAGE_SIZE rest
          (if outcome then paginatorOnSuccess PAGE_SIZE s else paginatorOnPayloadTooLarge s)

/-- The request windows issued from the initial state. -/
def paginatorRequests (PAGE_SIZE : Nat) (outcomes : List Bool) : List (Nat × Nat) :=
  paginatorRequestsFrom PAGE_SIZE outcomes (paginatorInit PAGE_SIZE)

/-! ## Constants (constants.mjs)

The constants module itself is not part of the provided sources; the values
below are the standard AWS Config resource-type strings and the literal
service and relationship names the rest of the source uses.  No claim in
this development depends on the exact spelling of any of them, only on
their being pairwise distinct where the source distinguishes them. -/

def AWS_TAGS_TAG : String := "AWS::Tags::Tag"
def AWS_S3_ACCOUNT_PUBLIC_ACCESS_BLOCK : String := "AWS::S3::AccountPublicAccessBlock"
def IS_ASSOCIATED_WITH : String := "Is associated with "
def CONTAINS : String := "Contains "
def IS_ATTACHED_TO : String := "Is attached to "
def IS_CONTAINED_IN : String := "Is contained in "
def GLOBAL : String := "global"
def NOT_APPLICABLE : String := "Not Applicable"
def RESOURCE_DISCOVERED : String := "ResourceDiscovered"
def TAGS : String := "tags"
def TAG : String := "tag"
def NAME : String := "Name"
def UNKNOWN : String := "unknown"
def AWS : String := "aws"
def AWS_CN : String := "aws-cn"
def AWS_US_GOV : String := "aws-us-gov"
def CN_NORTH_1 : String := "cn-north-1"
def CN_NORTHWEST_1 : String := "cn-northwest-1"
def US_GOV_EAST_1 : String := "us-gov-east-1"
def US_GOV_WEST_1 : String := "us-gov-west-1"

def AWS_API_GATEWAY_REST_API : String := "AWS::ApiGateway::RestApi"
def AWS_API_GATEWAY_RESOURCE : String := "AWS::ApiGateway::Resource"
def AWS_API_GATEWAY_METHOD : String := "AWS::ApiGateway::Method"
def AWS_DYNAMODB_STREAM : String := "AWS::DynamoDB::Stream"
def AWS_ECS_TASK : String := "AWS::ECS::Task"
def AWS_ELASTIC_LOAD_BALANCING_V2_LISTENER : String := "AWS::ElasticLoadBalancingV2::Listener"
def AWS_EKS_NODE_GROUP : String := "AWS::EKS::Nodegroup"
def AWS_ELASTIC_LOAD_BALANCING_V2_TARGET_GROUP : String := "AWS::ElasticLoadBalancingV2::TargetGroup"
def AWS_IAM_AWS_MANAGED_POLICY : String := "AWS::IAM::AWSManagedPolicy"
def AWS_EC2_SPOT : String := "AWS::EC2::Spot"
def AWS_EC2_SPOT_FLEET : String := "AWS::EC2::SpotFleet"
def AWS_IAM_INLINE_POLICY : String := "AWS::IAM::InlinePolicy"
def AWS_COGNITO_USER_POOL : String := "AWS::Cognito::UserPool"
def AWS_OPENSEARCH_DOMAIN : String := "AWS::OpenSearchService::Domain"

def AWS_AUTOSCALING_AUTOSCALING_GROUP : String := "AWS::AutoScaling::AutoScalingGroup"
def AWS_LAMBDA_FUNCTION : String := "AWS::Lambda::Function"
def AWS_IAM_ROLE : String := "AWS::IAM::Role"
def AWS_IAM_GROUP : String := "AWS::IAM::Group"
def AWS_IAM_USER : String := "AWS::IAM::User"
def AWS_IAM_POLICY : String := "AWS::IAM::Policy"
def AWS_S3_BUCKET : String := "AWS::S3::Bucket"
def AWS_EC2_VPC : String := "AWS::EC2::VPC"
def AWS_EC2_NETWORK_INTERFACE : String := "AWS::EC2::NetworkInterface"
def AWS_EC2_INSTANCE : String := "AWS::EC2::Instance"
def AWS_EC2_VOLUME : String := "AWS::EC2::Volume"
def AWS_EC2_SUBNET : String := "AWS::EC2::Subnet"
def AWS_EC2_SECURITY_GROUP : String := "AWS::EC2::SecurityGroup"
def AWS_EC2_ROUTE_TABLE : String := "AWS::EC2::RouteTable"
def AWS_EC2_INTERNET_GATEWAY : String := "AWS::EC2::InternetGateway"
def AWS_EC2_NETWORK_ACL : String := "AWS::EC2::NetworkAcl"
def AWS_ELASTIC_LOAD_BALANCING_V2_LOADBALANCER : String := "AWS::ElasticLoadBalancingV2::LoadBalancer"
def AWS_EC2_EIP : String := "AWS::EC2::EIP"

def APIGATEWAY : String := "apigateway"
def EC2 : String := "ec2"
def IAM : String := "iam"
def VPC : String := "VPC"
def SIGN_IN : String := "signin.aws"
def CONSOLE : String := "console"
def AWS_AMAZON_COM : String := "amazon.com"
def S3 : String := "s3"
def LAMBDA : String := "lambda"
def HOME : String := "home"
def REGION : String := "region"

/-- The fixed set of resource types whose change detection uses `md5Hash`
(utils.mjs, resourceTypesToHash). -/
def resourceTypesToHash : List String := [
  AWS_API_GATEWAY_METHOD,
  AWS_API_GATEWAY_RESOURCE,
  AWS_DYNAMODB_STREAM,
  AWS_ECS_TASK,
  AWS_ELASTIC_LOAD_BALANCING_V2_LISTENER,
  AWS_EKS_NODE_GROUP,
  AWS_ELASTIC_LOAD_BALANCING_V2_TARGET_GROUP,
  AWS_IAM_AWS_MANAGED_POLICY,
  AWS_EC2_SPOT,
  AWS_EC2_SPOT_FLEET,
  AWS_IAM_INLINE_POLICY,
  AWS_COGNITO_USER_POOL,
  AWS_OPENSEARCH_DOMAIN]

/-! ## Delta engine (index.mjs, getResourceChanges) and persistence
      reconciliation (persistence/index.mjs)

Resources here are the projected save objects produced by `createSaveObject`
(for the discovered working set) and the stored copies read back from the
graph store.  The JS code accesses `id`, `resourceType` (or `label`),
`md5Hash` and the flat `properties` record on them; property records are
modelled as association lists of string-valued properties, with `none`
standing for an absent (or `null`/`undefined`) property. -/

/-- A flat property record: `properties` on a projected resource. -/
abbrev Props := List (String × String)

/-- `properties[k]`; `none` models `undefined`. -/
def getProp (p : Props) (k : String) : Option String :=
  (p.find? (fun q => q.1 == k)).map (·.2)

/-- A resource as seen by the delta engine and the persistence layer: both
the projected working-set entries and the stored copies carry these fields
(the stored copies use the field for their `label`). -/
structure Resource where
  id : String
  resourceType : String
  md5Hash : String
  properties : Props
deriving DecidableEq

/-- Store object produced by `createStore` for `resourcesToStore`. -/
structure StoreObject where
  id : String
  md5Hash : String
  label : String
  properties : Props
deriving DecidableEq

/-- Update object produced by `createUpdate` for `resourcesToUpdate`. -/
structure UpdateObject where
  id : String
  md5Hash : String
  properties : Props
deriving DecidableEq

/-- index.mjs, createStore: `{id, md5Hash, label: resourceType.replace(/::/g, "_"), properties}`. -/
def createStore (r : Resource) : StoreObject :=
  { id := r.id, md5Hash := r.md5Hash,
    label := r.resourceType.replace "::" "_", properties := r.properties }

/-- index.mjs, createUpdate: the update payload keeps only the property keys
whose values differ from the stored copy.  In the source the lookup
`dbResourcesMap.get(id)` always succeeds because `createUpdate` is applied
only to resources that passed the `dbResourcesMap.has(id)` filter; the
`none` case is therefore unreachable there and is modelled as `Option`. -/
def createUpdate (dbResourcesMap : JsMap Resource) (r : Resource) : Option UpdateObject :=
  (jsGet dbResourcesMap r.id).map (fun dbResource =>
    { id := r.id, md5Hash := r.md5Hash,
      properties := r.properties.filter
        (fun kv => getProp dbResource.properties kv.1 ≠ some kv.2) })

/-- index.mjs, the filter deciding membership in `resourcesToUpdate`:
for hash-set types compare `md5Hash`; otherwise update when the stored
`supplementaryConfiguration` was null and the discovered one is not; else
(except for tag resources) compare `configurationItemCaptureTime`. -/
def updateFilter (dbResourcesMap : JsMap Resource) (r : Resource) : Bool :=
  match jsGet dbResourcesMap r.id with
  | none => false
  | some dbResource =>
    if resourceTypesToHash.contains r.resourceType then
      r.md5Hash != dbResource.md5Hash
    else if (getProp dbResource.properties "supplementaryConfiguration").isNone &&
            (getProp r.properties "supplementaryConfiguration").isSome then
      true
    else
      r.resourceType != AWS_TAGS_TAG &&
        getProp r.properties "configurationItemCaptureTime" !=
          getProp dbResource.properties "configurationItemCaptureTime"

/-- The three node-diff outputs of `getResourceChanges`. -/
structure ResourceChanges where
  resourcesToStore : List StoreObject
  resourceIdsToDelete : List String
  resourcesToUpdate : List UpdateObject
deriving DecidableEq

/-- index.mjs, getResourceChanges: node diff between the discovered
working-set map and the stored resources map. -/
def getResourceChanges (resourcesMap dbResourcesMap : JsMap Resource) : ResourceChanges :=
  let resources := jsValues resourcesMap
  let dbResources := jsValues dbResourcesMap
  { resourcesToStore :=
      (resources.filter (fun x => !(jsHas dbResourcesMap x.id))).map createStore,
    resourcesToUpdate :=
      (resources.filter (updateFilter dbResourcesMap)).filterMap (createUpdate dbResourcesMap),
    resourceIdsToDelete :=
      (dbResources.filter (fun x => !(jsHas resourcesMap x.id))).map (·.id) }

/-- The failure summary returned by `persistResourcesAndRelationships`. -/
structure PersistenceFailures where
  failedDeletes : List String
  failedStores : List String
deriving DecidableEq

/-- persistence/index.mjs, processPersistenceFailures: rebuild the working
set after persistence.  A fresh map is built from the resources, every id in
`failedStores` is deleted, and every id in `failedDeletes` is re-inserted
with `dbResourcesMap.get(id)`.  That lookup yields `undefined` when the id
is absent from the stored map, hence the `Option Resource` values. -/
def processPersistenceFailures (dbResourcesMap : JsMap Resource)
    (resources : List Resource) (pf : PersistenceFailures) : List (Option Resource) :=
  let resourceMap : JsMap (Option Resource) :=
    resources.foldl (fun acc x => jsSet acc x.id (some x)) []
  let afterStores := pf.failedStores.foldl (fun acc id => jsDelete acc id) resourceMap
  let afterDeletes := pf.failedDeletes.foldl
    (fun acc id => jsSet acc id (jsGet dbResourcesMap id)) afterStores
  jsValues afterDeletes

/-- A per-batch error collected by the promise pool: the failed items
attached to the error (`PromisePoolError.item`). -/
structure PoolError (α : Type) where
  item : α
deriving DecidableEq

/-- The `{errors}` result of one persistence phase. -/
structure MutationResult (α : Type) where
  errors : List (PoolError α)
deriving DecidableEq

/-- persistence/index.mjs, persistResourcesAndRelationships: runs the five
mutation phases and then builds the failure summary.  Only the
delete-resources and store-resources phases contribute: the error lists of
the update-resources, delete-relationships and store-relationships phases
are not destructured at all.  Each phase result is passed here explicitly;
`failedDeletes` flattens the failed id batches, `failedStores` flattens the
failed store-object batches and keeps their ids. -/
def persistResourcesAndRelationships
    (deleteResourcesResult : MutationResult (List String))
    (updateResourcesResult : MutationResult (List UpdateObject))
    (storeResourcesResult : MutationResult (List StoreObject))
    (deleteRelationshipsResult : MutationResult (List String))
    (storeRelationshipsResult : MutationResult (List String)) : PersistenceFailures :=
  { failedDeletes := deleteResourcesResult.errors.flatMap (·.item),
    failedStores := storeResourcesResult.errors.flatMap (fun e => e.item.map (·.id)) }

/-! ## Dual-store resource processor (apiClient factory, createResourceProcessor)

`createResourceProcessor` first runs the search-index mutation on the whole
batch, reads the `unprocessedResources` id list from its response, runs the
graph-store mutation on the items the index accepted, and finally throws an
`UnprocessedOpenSearchResourcesError` carrying the rejected items when there
are any.  The two store calls are recorded in order in a trace; the thrown
error is the `Option` component.  `getId` models the JS accessor
`x.id ?? x`, which reads store objects (with an `id` field) and plain id
strings uniformly. -/

inductive StoreCall (α : Type) where
  | search (items : List α)
  | graph (items : List α)
deriving DecidableEq

/-- The result of running one batch through the dual-store processor:
the store calls made, in order, and the typed error thrown (if any)
carrying the items the search index rejected. -/
def createResourceProcessor {α : Type} (getId : α → String)
    (unprocessedResourceArns : List String) (resources : List α) :
    List (StoreCall α) × Option (List α) :=
  let part := resources.partition (fun x => unprocessedResourceArns.contains (getId x))
  let unprocessedResources := part.1
  let processedResources := part.2
  ([StoreCall.search resources, StoreCall.graph processedResources],
   if unprocessedResources.isEmpty then none else some unprocessedResources)

/-- apiClient factory, process: split the input into batches, run the
processor on each, and collect a `PromisePoolError` per failed batch whose
`item` holds the failures carried by the typed error.  The per-batch
search-index response is abstracted as a function of the batch. -/
def processResourceBatches {α : Type} (getId : α → String)
    (indexResponse : List α → List String) (batchSize : Nat)
    (resources : List α) : MutationResult (List α) :=
  { errors := (resources.toChunks batchSize).filterMap
      (fun batch =>
        ((createResourceProcessor getId (indexResponse batch) batch).2).map
          (fun failures => { item := failures })) }

/-! ## Relationship construction (utils.mjs) -/

/-- A relationship descriptor as built by `createRelationship`: only the
fields that were passed non-null are present on the JS object; absent
fields are `none`. -/
structure Relationship where
  relationshipName : String
  arn : Option String := none
  resourceType : Option String := none
  resourceName : Option String := none
  resourceId : Option String := none
  accountId : Option String := none
  awsRegion : Option String := none
deriving DecidableEq

/-- The optional parameter record destructured by `createRelationship`. -/
structure RelParams where
  arn : Option String := none
  relNameSuffix : Option String := none
  resourceName : Option String := none
  resourceId : Option String := none
  awsRegion : Option String := none
  accountId : Option String := none
deriving DecidableEq

/-- utils.mjs, createRelationship: start from `{relationshipName}` and add
each field that was passed non-null; a `relNameSuffix` is appended to the
relationship name. -/
def createRelationship (relationshipName : String) (resourceType : Option String)
    (p : RelParams) : Relationship :=
  { relationshipName :=
      match p.relNameSuffix with
      | some suffix => relationshipName ++ suffix
      | none => relationshipName,
    arn := p.arn,
    resourceType := resourceType,
    resourceName := p.resourceName,
    resourceId := p.resourceId,
    accountId := p.accountId,
    awsRegion := p.awsRegion }

/-- utils.mjs, createAssociatedRelationship. -/
def createAssociatedRelationship (resourceType : Option String) (p : RelParams) : Relationship :=
  createRelationship IS_ASSOCIATED_WITH resourceType p

/-- utils.mjs, createArnRelationship. -/
def createArnRelationship (relationshipName : String) (arn : String) : Relationship :=
  createRelationship relationshipName none { arn := some arn }

/-- utils.mjs, createResourceIdKey: the composite lookup key
`resourceType_resourceId_accountId_awsRegion`, where the leading type
segment is omitted when the type is null. -/
def createResourceIdKey (resourceType : Option String)
    (resourceId accountId awsRegion : String) : String :=
  (match resourceType with | none => "" | some t => t ++ "_") ++
    resourceId ++ "_" ++ accountId ++ "_" ++ awsRegion

/-- utils.mjs, createResourceNameKey: same shape, keyed by resource name. -/
def createResourceNameKey (resourceType : Option String)
    (resourceName accountId awsRegion : String) : String :=
  (match resourceType with | none => "" | some t => t ++ "_") ++
    resourceName ++ "_" ++ accountId ++ "_" ++ awsRegion

/-- utils.mjs, createArn: the partition is looked up from the China and
GovCloud region maps and defaults to `aws`; the ARN is then assembled in
the standard `arn:partition:service:region:accountId:resource` layout
(the external `buildArn` helper of the AWS SDK). -/
def createArn (service accountId region resource : String) : String :=
  let partition :=
    if region == CN_NORTH_1 || region == CN_NORTHWEST_1 then AWS_CN
    else if region == US_GOV_EAST_1 || region == US_GOV_WEST_1 then AWS_US_GOV
    else AWS
  "arn:" ++ partition ++ ":" ++ service ++ ":" ++ region ++ ":" ++ accountId ++ ":" ++ resource

/-! ## Environment-variable inference
      (createEnvironmentVariableRelationships.mjs)

The function receives the lookup maps, the owning resource account and
region, and the environment-variable record; it folds over the variable
values, appending the relationships inferred for each value. -/

/-- An entry of `resourceMap` as consumed here: the fields destructured in
the two branches (`{resourceType, arn}` and `{resourceType, resourceId}`). -/
structure LookupResource where
  arn : String
  resourceType : String
  resourceId : String
deriving DecidableEq

/-- The three-way lookup of the non-direct branch:
`envVarResourceIdentifierToIdMap.get(resourceIdKey) ??
 envVarResourceIdentifierToIdMap.get(resourceNameKey) ??
 endpointToIdMap.get(val)`. -/
def envResolveId (envVarResourceIdentifierToIdMap endpointToIdMap : JsMap String)
    (accountId awsRegion val : String) : Option String :=
  let resourceIdKey := createResourceIdKey none val accountId awsRegion
  let resourceNameKey := createResourceNameKey none val accountId awsRegion
  ((jsGet envVarResourceIdentifierToIdMap resourceIdKey).orElse
    (fun _ => jsGet envVarResourceIdentifierToIdMap resourceNameKey)).orElse
    (fun _ => jsGet endpointToIdMap val)

/-- The relationships contributed by a single environment-variable value:
a direct ARN match yields an associated-with relationship immediately; a
value resolved through the lookup maps yields one unless the resolved
resource has `resourceId` equal to the owning account id or has the
S3 account-public-access-block type. -/
def envRelationshipsForValue (resourceMap : JsMap LookupResource)
    (envVarResourceIdentifierToIdMap endpointToIdMap : JsMap String)
    (accountId awsRegion val : String) : List Relationship :=
  match jsGet resourceMap val with
  | some res =>
      [createAssociatedRelationship (some res.resourceType) { arn := some res.arn }]
  | none =>
      match envResolveId envVarResourceIdentifierToIdMap endpointToIdMap accountId awsRegion val with
      | none => []
      | some id =>
          match jsGet resourceMap id with
          | none => []
          | some res =>
              if res.resourceId != accountId &&
                 res.resourceType != AWS_S3_ACCOUNT_PUBLIC_ACCESS_BLOCK then
                [createAssociatedRelationship (some res.resourceType) { arn := some id }]
              else []

/-- createEnvironmentVariableRelationships.mjs: reduce over
`Object.values(variables)` (the values of the environment-variable record,
in insertion order), appending the relationships for each value. -/
def createEnvironmentVariableRelationships (resourceMap : JsMap LookupResource)
    (envVarResourceIdentifierToIdMap endpointToIdMap : JsMap String)
    (accountId awsRegion : String) (envVariables : List (String × String)) : List Relationship :=
  (envVariables.map (·.2)).foldl
    (fun acc val =>
      acc ++ envRelationshipsForValue resourceMap envVarResourceIdentifierToIdMap
        endpointToIdMap accountId awsRegion val) []

/-! ## Event-bus handler (addIndividualRelationships.mjs)

The per-resource handler for event buses pushes one associated-with
relationship per rule recorded for the bus:
`relationships.push(...eventBusRuleMap.get(arn).map(createArnRelationship(IS_ASSOCIATED_WITH)))`.
When the bus has no entry in `eventBusRuleMap`, `get` returns `undefined`
and the `.map` call throws a TypeError; the thrown case is modelled as
`none`. -/

def eventBusHandlerRelationships (eventBusRuleMap : JsMap (List String))
    (arn : String) : Option (List Relationship) :=
  (jsGet eventBusRuleMap arn).map
    (fun rules => rules.map (createArnRelationship IS_ASSOCIATED_WITH))

/-! ## Tag synthesis (getAllSdkResources module: createTag, createTags) -/

/-- A tag as carried on a resource: `{key, value}`. -/
structure TagKeyValue where
  key : String
  value : String
deriving DecidableEq

/-- The relationship object pushed onto a Tag resource for each carrying
resource (a plain object literal, not built via `createRelationship`). -/
structure TagRelEntry where
  relationshipName : String
  resourceId : String
  resourceName : String
  resourceType : String
  awsRegion : String
deriving DecidableEq

/-- The fields of a resource that `createTags` destructures. -/
structure TaggedResource where
  accountId : String
  awsRegion : String
  resourceId : String
  resourceName : String
  resourceType : String
  tags : List TagKeyValue
deriving DecidableEq

/-- The Tag resource built by `createTag` through `createConfigObject`;
only the fields relevant to tag synthesis are carried (the constant
`configuration: {}` and `configurationItemStatus` fields play no further
role and are omitted). -/
structure TagResource where
  id : String
  accountId : String
  arn : String
  availabilityZone : String
  awsRegion : String
  resourceId : String
  resourceName : String
  resourceType : String
  relationships : List TagRelEntry
deriving DecidableEq

/-- createTag: the tag ARN is
`arn:aws:tags::<accountId>:tag/<key>=<value>` (built by `createArn` with an
empty region), and the Tag resource is a global config object whose id and
resourceId are that ARN. -/
def createTag (accountId : String) (t : TagKeyValue) : TagResource :=
  let resourceName := t.key ++ "=" ++ t.value
  let arn := createArn TAGS accountId "" (TAG ++ "/" ++ resourceName)
  { id := arn,
    accountId := accountId,
    arn := arn,
    availabilityZone := NOT_APPLICABLE,
    awsRegion := GLOBAL,
    resourceId := arn,
    resourceName := resourceName,
    resourceType := AWS_TAGS_TAG,
    relationships := [] }

/-- The associated-with entry recording that a resource carries a tag. -/
def tagRelEntry (r : TaggedResource) : TagRelEntry :=
  { relationshipName := IS_ASSOCIATED_WITH,
    resourceId := r.resourceId,
    resourceName := r.resourceName,
    resourceType := r.resourceType,
    awsRegion := r.awsRegion }

/-- One step of the `createTags` accumulation: build the tag resource for
one `{key, value}` pair of one resource, then either insert it (with the
relationship to the carrying resource) when its ARN is new, or push the
relationship onto the already-accumulated tag resource. -/
def createTagsStep (r : TaggedResource) (acc : JsMap TagResource)
    (t : TagKeyValue) : JsMap TagResource :=
  let tag := createTag r.accountId t
  match jsGet acc tag.id with
  | none =>
      jsSet acc tag.id { tag with relationships := tag.relationships ++ [tagRelEntry r] }
  | some existing =>
      jsSet acc tag.id
        { existing with relationships := existing.relationships ++ [tagRelEntry r] }

/-- createTags: reduce over the resources, and for each resource over its
tags, into a map keyed by tag ARN; return the accumulated tag resources in
insertion order. -/
def createTags (resources : List TaggedResource) : List TagResource :=
  jsValues (resources.foldl (fun acc r => r.tags.foldl (createTagsStep r) acc) [])

/-- The (resource, tag) occurrence stream processed by `createTags`,
flattened. -/
def tagPairs (resources : List TaggedResource) : List (TaggedResource × TagKeyValue) :=
  resources.flatMap (fun r => r.tags.map (fun t => (r, t)))

/-- The accumulation step of `createTags`, uncurried over one
(resource, tag) occurrence. -/
def tagStepPair (acc : JsMap TagResource) (p : TaggedResource × TagKeyValue) :
    JsMap TagResource :=
  createTagsStep p.1 acc p.2

/-- The relationship entries contributed to the tag resource with ARN
`tid` by a stream of (resource, tag) occurrences. -/
def tagContributions (pairs : List (TaggedResource × TagKeyValue)) (tid : String) :
    List TagRelEntry :=
  pairs.filterMap
    (fun p => if (createTag p.1.accountId p.2).id = tid then some (tagRelEntry p.1) else none)

/-- The first occurrence whose synthesized tag has ARN `tid`. -/
def firstTagPair (pairs : List (TaggedResource × TagKeyValue)) (tid : String) :
    Option (TaggedResource × TagKeyValue) :=
  pairs.find? (fun p => (createTag p.1.accountId p.2).id == tid)

/-! ## Save projection (persistence/transformers.mjs)

`createProperties` iterates over `Object.entries(resource)`, so the
projection has to be modelled over open JSON-like objects rather than a
fixed structure.  `JsVal` covers the value fragment the projection
manipulates: strings, arrays, objects and `undefined` (an absent object
key reads as `undefined`).  Property access on `undefined` and method
calls on values lacking the method throw in JS; those paths are modelled
with `Option`, and `createSaveObject` is accordingly `Option`-valued.
Resources reaching the projection are always objects, so non-object inputs
are likewise mapped to `none`. -/

inductive JsVal where
  | undef : JsVal
  | str : String → JsVal
  | arr : List JsVal → JsVal
  | obj : List (String × JsVal) → JsVal

/-- Is this value `undefined`. -/
def JsVal.isUndef : JsVal → Bool
  | .undef => true
  | _ => false

/-- Strict equality of a value with a string literal (`v === "s"`). -/
def JsVal.isStr : JsVal → String → Bool
  | .str s, t => s == t
  | _, _ => false

/-- Read a key from an object field list; an absent key is `undefined`. -/
def getFieldOf (fields : List (String × JsVal)) (k : String) : JsVal :=
  match fields.find? (fun p => p.1 == k) with
  | some p => p.2
  | none => (.undef : JsVal)

/-- Member access `v[k]`: throws (`none`) on `undefined`, reads the field
of an object, and yields `undefined` on other primitives. -/
def memberAccess : JsVal → String → Option JsVal
  | .undef, _ => none
  | .obj fields, k => some (getFieldOf fields k)
  | _, _ => some (.undef : JsVal)

/-- JSON escaping of one character (the fragment needed here). -/
def jsonEscapeChar (c : Char) : String :=
  if c == '"' then "\\\"" else if c == '\\' then "\\\\" else String.singleton c

/-- JSON escaping of a string. -/
def jsonEscape (s : String) : String :=
  String.join (s.toList.map jsonEscapeChar)

mutual

/-- `JSON.stringify` on the modelled fragment: `undefined` inside an array
serialises as `null`, object fields with `undefined` values are omitted. -/
def jsonStringify : JsVal → String
  | .undef => "null"
  | .str s => "\"" ++ jsonEscape s ++ "\""
  | .arr xs => "[" ++ String.intercalate "," (jsonStringifyElems xs) ++ "]"
  | .obj fields => "\x7b" ++ String.intercalate "," (jsonStringifyFields fields) ++ "\x7d"

/-- Serialised array elements. -/
def jsonStringifyElems : List JsVal → List String
  | [] => []
  | x :: xs => jsonStringify x :: jsonStringifyElems xs

/-- Serialised object fields, omitting `undefined` values. -/
def jsonStringifyFields : List (String × JsVal) → List String
  | [] => []
  | (k, v) :: rest =>
      if v.isUndef then jsonStringifyFields rest
      else ("\"" ++ jsonEscape k ++ "\":" ++ jsonStringify v) :: jsonStringifyFields rest

end

/-- `JSON.stringify` as used for a property value: stringifying
`undefined` yields `undefined` again (the key is then assigned
`undefined`). -/
def jsonStringifyVal : JsVal → JsVal
  | .undef => (.undef : JsVal)
  | v => .str (jsonStringify v)

mutual

/-- String interpolation of a value in a template literal. -/
def jsToDisplayString : JsVal → String
  | .undef => "undefined"
  | .str s => s
  | .arr xs => String.intercalate "," (jsDisplayElems xs)
  | .obj _ => "[object Object]"

/-- Template-literal display of array elements. -/
def jsDisplayElems : List JsVal → List String
  | [] => []
  | x :: xs => jsToDisplayString x :: jsDisplayElems xs

end

/-- transformers.mjs, createSignInHostname. -/
def createSignInHostname (accountId service : String) : String :=
  "https://" ++ accountId ++ "." ++ SIGN_IN ++ "." ++ AWS_AMAZON_COM ++ "/" ++
    CONSOLE ++ "/" ++ service

/-- transformers.mjs, createLoggedInHostname. -/
def createLoggedInHostname (awsRegion service : String) : String :=
  "https://" ++ awsRegion ++ "." ++ CONSOLE ++ "." ++ AWS_AMAZON_COM ++ "/" ++
    service ++ "/" ++ HOME

/-- transformers.mjs, defaultUrlMappings: resource type to
`(url, console service)`. -/
def defaultUrlMappings : List (String × String × String) := [
  (AWS_EC2_VPC, ("vpcs:sort=VpcId", "vpc")),
  (AWS_EC2_NETWORK_INTERFACE, ("NIC:sort=description", EC2)),
  (AWS_EC2_INSTANCE, ("Instances:sort=instanceId", EC2)),
  (AWS_EC2_VOLUME, ("Volumes:sort=desc:name", EC2)),
  (AWS_EC2_SUBNET, ("subnets:sort=SubnetId", "vpc")),
  (AWS_EC2_SECURITY_GROUP, ("SecurityGroups:sort=groupId", EC2)),
  (AWS_EC2_ROUTE_TABLE, ("RouteTables:sort=routeTableId", "vpc")),
  (AWS_EC2_INTERNET_GATEWAY, ("igws:sort=internetGatewayId", "vpc")),
  (AWS_EC2_NETWORK_ACL, ("acls:sort=networkAclId", "vpc")),
  (AWS_ELASTIC_LOAD_BALANCING_V2_LOADBALANCER, ("LoadBalancers:", EC2)),
  (AWS_ELASTIC_LOAD_BALANCING_V2_TARGET_GROUP, ("TargetGroups:", EC2)),
  (AWS_ELASTIC_LOAD_BALANCING_V2_LISTENER, ("LoadBalancers:", EC2)),
  (AWS_EC2_EIP, ("Addresses:sort=PublicIp", EC2))]

/-- transformers.mjs, iamUrlMappings. -/
def iamUrlMappings : List (String × String × String) := [
  (AWS_IAM_USER, ("/users", IAM)),
  (AWS_IAM_ROLE, ("/roles", IAM)),
  (AWS_IAM_POLICY, ("/policies", IAM)),
  (AWS_IAM_GROUP, ("/groups", IAM))]

/-- The default branch of `createConsoleUrls`: consult
`defaultUrlMappings` (keyed by the display string of the resource type)
and return `{}` when no mapping exists. -/
def createConsoleUrlsDefault (resourceTypeKey accountId awsRegion : String) :
    List (String × JsVal) :=
  match (defaultUrlMappings.find? (fun p => p.1 == resourceTypeKey)).map (·.2) with
  | some (url, ty) =>
      let v2Type := ty ++ "/v2"
      [("loginURL", .str (createSignInHostname accountId ty ++ "?" ++ REGION ++ "=" ++
          awsRegion ++ "#" ++ url)),
       ("loggedInURL", .str (createLoggedInHostname awsRegion v2Type ++ "?" ++ REGION ++ "=" ++
          awsRegion ++ "#" ++ url))]
  | none => []

/-- transformers.mjs, createConsoleUrls: the per-type switch building the
console login URLs.  The branches that dereference `configuration` throw
when it is `undefined`. -/
def createConsoleUrls (resourceFields : List (String × JsVal)) :
    Option (List (String × JsVal)) :=
  let resourceType := getFieldOf resourceFields "resourceType"
  let resourceName := jsToDisplayString (getFieldOf resourceFields "resourceName")
  let accountId := jsToDisplayString (getFieldOf resourceFields "accountId")
  let awsRegion := jsToDisplayString (getFieldOf resourceFields "awsRegion")
  let configuration := getFieldOf resourceFields "configuration"
  if resourceType.isStr AWS_API_GATEWAY_REST_API then do
    let cid ← memberAccess configuration "id"
    let path := "?" ++ REGION ++ "=" ++ awsRegion ++ "#/apis/" ++ jsToDisplayString cid ++
      "/resources"
    return [("loginURL", .str (createSignInHostname accountId APIGATEWAY ++ path)),
            ("loggedInURL", .str (createLoggedInHostname awsRegion APIGATEWAY ++ path))]
  else if resourceType.isStr AWS_API_GATEWAY_RESOURCE then do
    let restApiId ← memberAccess configuration "RestApiId"
    let cid ← memberAccess configuration "id"
    let path := "?" ++ REGION ++ "=" ++ awsRegion ++ "#/apis/" ++
      jsToDisplayString restApiId ++ "/resources/" ++ jsToDisplayString cid
    return [("loginURL", .str (createSignInHostname accountId APIGATEWAY ++ path)),
            ("loggedInURL", .str (createLoggedInHostname awsRegion APIGATEWAY ++ path))]
  else if resourceType.isStr AWS_API_GATEWAY_METHOD then do
    let httpMethod ← memberAccess configuration "httpMethod"
    let restApiId ← memberAccess configuration "RestApiId"
    let resourceId ← memberAccess configuration "ResourceId"
    let path := "?" ++ REGION ++ "=" ++ awsRegion ++ "#/apis/" ++
      jsToDisplayString restApiId ++ "/resources/" ++ jsToDisplayString resourceId ++ "/" ++
      jsToDisplayString httpMethod
    return [("loginURL", .str (createSignInHostname accountId APIGATEWAY ++ path)),
            ("loggedInURL", .str (createLoggedInHostname awsRegion APIGATEWAY ++ path))]
  else if resourceType.isStr AWS_AUTOSCALING_AUTOSCALING_GROUP then
    let path := "/autoscaling/home?" ++ REGION ++ "=" ++ awsRegion ++ "#AutoScalingGroups:id=" ++
      resourceName ++ ";view=details"
    some [("loginURL", .str (createSignInHostname accountId EC2 ++ path)),
          ("loggedInURL", .str (createLoggedInHostname awsRegion EC2 ++ path))]
  else if resourceType.isStr AWS_LAMBDA_FUNCTION then
    let path := "?" ++ REGION ++ "=" ++ awsRegion ++ "#/functions/" ++ resourceName ++
      "?tab=graph"
    some [("loginURL", .str (createSignInHostname accountId LAMBDA ++ path)),
          ("loggedInURL", .str (createLoggedInHostname awsRegion LAMBDA ++ path))]
  else if resourceType.isStr AWS_IAM_ROLE || resourceType.isStr AWS_IAM_GROUP ||
          resourceType.isStr AWS_IAM_USER || resourceType.isStr AWS_IAM_POLICY then
    match (iamUrlMappings.find? (fun p => resourceType.isStr p.1)).map (·.2) with
    | some (url, ty) =>
        some [("loginURL", .str (createSignInHostname accountId ty ++ "?" ++ HOME ++ "?#" ++ url)),
              ("loggedInURL", .str ("https://" ++ CONSOLE ++ "." ++ AWS_AMAZON_COM ++ "/" ++ ty ++
                "/" ++ HOME ++ "?#" ++ url))]
    | none => some []
  else if resourceType.isStr AWS_S3_BUCKET then
    some [("loginURL", .str (createSignInHostname accountId S3 ++ "?bucket=" ++ resourceName)),
          ("loggedInURL", .str ("https://" ++ S3 ++ "." ++ CONSOLE ++ "." ++ AWS_AMAZON_COM ++
            "/" ++ S3 ++ "/buckets/" ++ resourceName ++ "/?" ++ REGION ++ "=" ++ awsRegion))]
  else
    some (createConsoleUrlsDefault (jsToDisplayString resourceType) accountId awsRegion)

/-- Search the tags array for the first element whose `key` is `Name`;
the outer `none` models the TypeError thrown when an element is
`undefined`. -/
def findNameTag : List JsVal → Option (Option JsVal)
  | [] => some none
  | t :: rest =>
      match memberAccess t "key" with
      | none => none
      | some k => if k.isStr NAME then some (some t) else findNameTag rest

/-- transformers.mjs, createTitle: prefer the `Name` tag; for ELBv2 target
groups and listeners take the last ARN segment, for auto-scaling groups
the last slash segment of it; otherwise fall back to `resourceName` or
`resourceId`.  Calling `.find` on a non-array `tags` value and `.split`
on a non-string `arn` throw (`none`). -/
def createTitle (resourceFields : List (String × JsVal)) : Option JsVal :=
  match getFieldOf resourceFields "tags" with
  | .arr tagList => do
      let nameTag ← findNameTag tagList
      match nameTag with
      | some t => memberAccess t "value"
      | none =>
          let resourceType := getFieldOf resourceFields "resourceType"
          if resourceType.isStr AWS_ELASTIC_LOAD_BALANCING_V2_TARGET_GROUP ||
             resourceType.isStr AWS_ELASTIC_LOAD_BALANCING_V2_LISTENER then
            match getFieldOf resourceFields "arn" with
            | .str a => some (.str (((a.splitOn ":").getLast?).getD ""))
            | _ => none
          else if resourceType.isStr AWS_AUTOSCALING_AUTOSCALING_GROUP then
            match getFieldOf resourceFields "arn" with
            | .str a =>
                let parsedAsg := ((a.splitOn ":").getLast?).getD ""
                some (.str (((parsedAsg.splitOn "/").getLast?).getD ""))
            | _ => none
          else
            if (getFieldOf resourceFields "resourceName").isUndef then
              some (getFieldOf resourceFields "resourceId")
            else some (getFieldOf resourceFields "resourceName")
  | _ => none

/-- transformers.mjs, propertiesToKeep. -/
def propertiesToKeep : List String := [
  "accountId", "arn", "availabilityZone", "awsRegion", "configuration",
  "configurationItemCaptureTime", "configurationItemStatus", "configurationStateId",
  "resourceCreationTime", "resourceId", "resourceName", "resourceType",
  "supplementaryConfiguration", "tags", "version", "vpcId", "subnetId", "subnetIds",
  "resourceValue", "state", "private", "dBInstanceStatus", "statement", "instanceType"]

/-- transformers.mjs, propertiesToJsonStringify. -/
def propertiesToJsonStringify : List String :=
  ["configuration", "supplementaryConfiguration", "tags", "state"]

/-- transformers.mjs, createProperties: keep the entries of the fixed
property subset (stringifying the nested ones), then append the console
URLs when present and the display title. -/
def createProperties (resourceFields : List (String × JsVal)) :
    Option (List (String × JsVal)) := do
  let props := resourceFields.foldl
    (fun acc kv =>
      if propertiesToKeep.contains kv.1 then
        if propertiesToJsonStringify.contains kv.1 then acc ++ [(kv.1, jsonStringifyVal kv.2)]
        else acc ++ [kv]
      else acc) []
  let logins ← createConsoleUrls resourceFields
  let withLogins := if logins.isEmpty then props else props ++ logins
  let title ← createTitle resourceFields
  return withLogins ++ [("title", title)]

/-- transformers.mjs, createSaveObject: destructure the resource (with
empty-array defaults for `relationships` and `tags`), compute the flat
properties, hash them for hash-set types (`digest` abstracts the md5
digest of utils.mjs `hash`, which hashes the JSON serialisation), and
assemble the save object. -/
def createSaveObject (digest : String → String) (resource : JsVal) : Option JsVal :=
  match resource with
  | .obj fields =>
      let relationships :=
        if (getFieldOf fields "relationships").isUndef then JsVal.arr []
        else getFieldOf fields "relationships"
      let tags :=
        if (getFieldOf fields "tags").isUndef then JsVal.arr []
        else getFieldOf fields "tags"
      match createProperties fields with
      | none => none
      | some properties =>
          let resourceType := getFieldOf fields "resourceType"
          let md5Hash : JsVal := .str
            (match resourceType with
             | .str rt =>
                 if resourceTypesToHash.contains rt then
                   digest (jsonStringify (.obj properties))
                 else ""
             | _ => "")
          some (.obj [
            ("id", getFieldOf fields "id"),
            ("md5Hash", md5Hash),
            ("resourceId", getFieldOf fields "resourceId"),
            ("resourceName", getFieldOf fields "resourceName"),
            ("resourceType", resourceType),
            ("accountId", getFieldOf fields "accountId"),
            ("arn", getFieldOf fields "arn"),
            ("awsRegion", getFieldOf fields "awsRegion"),
            ("relationships", relationships),
            ("properties", .obj properties),
            ("tags", tags)])
  | _ => none

/-! ## Concrete instances used by counterexamples and witnesses -/

/-- A working-set resource with id `a` for the C1 instance. -/
def c1Resource : Resource :=
  { id := "a", resourceType := AWS_EC2_INSTANCE, md5Hash := "", properties := [] }

/-- An account-public-access-block lookup entry whose `resourceId` differs
from the owning account id. -/
def c2ApabResource : LookupResource :=
  { arn := "arn:apab", resourceType := AWS_S3_ACCOUNT_PUBLIC_ACCESS_BLOCK, resourceId := "A2" }

/-- A lambda lookup entry standing for the owning resource itself. -/
def c3SelfResource : LookupResource :=
  { arn := "arn:me", resourceType := AWS_LAMBDA_FUNCTION, resourceId := "f1" }

/-- A lambda lookup entry resolved through the lookup maps in the C2 and
C3 witnesses. -/
def c23LambdaResource : LookupResource :=
  { arn := "arn:l", resourceType := AWS_LAMBDA_FUNCTION, resourceId := "f2" }

/-- Two resources in different accounts carrying the same `env=prod` tag. -/
def c8ResourceOne : TaggedResource :=
  { accountId := "111111111111", awsRegion := "eu-west-1", resourceId := "i-1",
    resourceName := "one", resourceType := AWS_EC2_INSTANCE,
    tags := [{ key := "env", value := "prod" }] }

def c8ResourceTwo : TaggedResource :=
  { accountId := "222222222222", awsRegion := "eu-west-1", resourceId := "i-2",
    resourceName := "two", resourceType := AWS_EC2_INSTANCE,
    tags := [{ key := "env", value := "prod" }] }

/-- A stored resource with id `b` (absent from the working set) for the C1
witness. -/
def c1DbResource : Resource :=
  { id := "b", resourceType := AWS_EC2_INSTANCE, md5Hash := "", properties := [] }

/-- A discovered gateway method (hash-set type) for the C5 witness. -/
def c5Resource : Resource :=
  { id := "arn:m1", resourceType := AWS_API_GATEWAY_METHOD, md5Hash := "newhash",
    properties := [] }

/-- Its stored copy with a different hash. -/
def c5DbResource : Resource :=
  { id := "arn:m1", resourceType := "AWS_ApiGateway_Method", md5Hash := "oldhash",
    properties := [] }

/-- A failed update batch for the C10 witness. -/
def c10UpdateError : PoolError (List UpdateObject) :=
  { item := [{ id := "u1", md5Hash := "", properties := [] }] }

/-- A failed delete batch (ids) for the C10 witness. -/
def c10DeleteError : PoolError (List String) := { item := ["x"] }

/-- A failed store batch for the C10 witness. -/
def c10StoreError : PoolError (List StoreObject) :=
  { item := [{ id := "zz", md5Hash := "", label := "AWS_EC2_Instance", properties := [] }] }

/-- Store objects for the C6 witness; the index rejects `arn:b`. -/
def c6StoreA : StoreObject :=
  { id := "arn:a", md5Hash := "", label := "AWS_EC2_Instance", properties := [] }

def c6StoreB : StoreObject :=
  { id := "arn:b", md5Hash := "", label := "AWS_EC2_Instance", properties := [] }

/-- The digest stand-in used to instantiate the save projection on concrete
inputs; the projection of the C4 resource never consults it because the
resource type is outside the hash set. -/
def c4Digest : String → String := fun s => s

/-- A well-formed resource (all destructured fields present, a
`configuration` payload, a type outside both the hash set and the console
URL tables). -/
def c4Resource : JsVal := .obj [
  ("id", .str "arn:aws:rds:eu-west-1:111:db:mydb"),
  ("resourceId", .str "db-1"),
  ("resourceName", .str "mydb"),
  ("resourceType", .str "AWS::RDS::DBInstance"),
  ("accountId", .str "111"),
  ("arn", .str "arn:aws:rds:eu-west-1:111:db:mydb"),
  ("awsRegion", .str "eu-west-1"),
  ("relationships", .arr []),
  ("tags", .arr []),
  ("configuration", .str "cfg")]

/-- First application of the projection to the C4 resource. -/
def c4Stage1 : JsVal := (createSaveObject c4Digest c4Resource).getD (.undef : JsVal)

/-- Second application of the projection. -/
def c4Stage2 : JsVal := (createSaveObject c4Digest c4Stage1).getD (.undef : JsVal)

/-- Read a field of a save object (an object value). -/
def JsVal.getField : JsVal → String → JsVal
  | .obj fields, k => getFieldOf fields k
  | _, _ => (.undef : JsVal)

/-- Does a save object carry a `configuration` key under `properties`?
Used to discriminate the two projection stages. -/
def saveObjectHasConfiguration : Option JsVal → Bool
  | some o => !((o.getField "properties").getField "configuration").isUndef
  | none => false

/-! ## Theorems -/

/-! ### Association-list map lemmas -/

theorem jsGet_cons {α : Type} (p : String × α) (m : JsMap α) (k : String) :
    jsGet (p :: m) k = if p.1 = k then some p.2 else jsGet m k := by
  by_cases h : p.1 = k
  · rw [if_pos h]
    unfold jsGet
    rw [List.find?_cons_of_pos _ (by simp [h])]
    rfl
  · rw [if_neg h]
    unfold jsGet
    rw [List.find?_cons_of_neg _ (by simp [h])]

theorem jsGet_eq_none_iff {α : Type} (m : JsMap α) (k : String) :
    jsGet m k = none ↔ k ∉ jsKeys m := by
  induction m with
  | nil => simp [jsGet, jsKeys]
  | cons p m ih =>
      rw [jsGet_cons]
      by_cases h : p.1 = k
      · simp [h, jsKeys]
      · simpa [jsKeys, h, Ne.symm h] using ih

theorem jsHas_cons {α : Type} (p : String × α) (m : JsMap α) (k : String) :
    jsHas (p :: m) k = if p.1 = k then true else jsHas m k := by
  rw [jsHas, jsGet_cons]
  by_cases h : p.1 = k <;> simp [h, jsHas]

theorem mem_of_jsGet_eq_some {α : Type} {m : JsMap α} {k : String} {v : α}
    (h : jsGet m k = some v) : (k, v) ∈ m := by
  induction m with
  | nil => simp [jsGet] at h
  | cons p m ih =>
      rw [jsGet_cons] at h
      by_cases hk : p.1 = k
      · simp [hk] at h
        have hp : p = (k, v) := by cases p; simp_all
        subst hp
        exact List.mem_cons_self _ _
      · simp [hk] at h
        exact List.mem_cons_of_mem _ (ih h)

theorem jsGet_eq_some_of_mem {α : Type} {m : JsMap α} {k : String} {v : α}
    (hnd : (jsKeys m).Nodup) (hm : (k, v) ∈ m) : jsGet m k = some v := by
  induction m with
  | nil => simp at hm
  | cons p m ih =>
      simp only [jsKeys, List.map_cons, List.nodup_cons] at hnd
      rcases List.mem_cons.mp hm with h | h
      · rw [← h, jsGet_cons]
        simp
      · rw [jsGet_cons]
        have hk : p.1 ≠ k := by
          intro hk
          exact hnd.1 (hk ▸ (List.mem_map.mpr ⟨(k, v), h, rfl⟩))
        simp [hk]
        exact ih hnd.2 h

theorem jsGet_isSome_iff {α : Type} (m : JsMap α) (k : String) :
    (jsGet m k).isSome = true ↔ k ∈ jsKeys m := by
  rcases h : jsGet m k with _ | v
  · simp [(jsGet_eq_none_iff m k).mp h]
  · simp
    exact List.mem_map.mpr ⟨(k, v), mem_of_jsGet_eq_some h, rfl⟩

theorem jsHas_iff {α : Type} (m : JsMap α) (k : String) :
    jsHas m k = true ↔ k ∈ jsKeys m := by
  rw [jsHas, jsGet_isSome_iff]

theorem mem_jsKeys_iff {α : Type} (m : JsMap α) (k : String) :
    k ∈ jsKeys m ↔ ∃ v, (k, v) ∈ m := by
  constructor
  · intro h
    rcases List.mem_map.mp h with ⟨⟨a, b⟩, hp, hk⟩
    simp only at hk
    subst hk
    exact ⟨b, hp⟩
  · rintro ⟨v, hv⟩
    exact List.mem_map.mpr ⟨(k, v), hv, rfl⟩

theorem mem_jsSet_elim {α : Type} {m : JsMap α} {k : String} {v : α} {p : String × α}
    (h : p ∈ jsSet m k v) : p ∈ m ∨ p = (k, v) := by
  unfold jsSet at h
  split at h
  · rcases List.mem_map.mp h with ⟨q, hq, hpq⟩
    by_cases hq1 : q.1 = k
    · right
      rw [← hpq]
      simp [hq1]
    · left
      rw [← hpq]
      simpa [hq1] using hq
  · rcases List.mem_append.mp h with h | h
    · exact Or.inl h
    · exact Or.inr (by simpa using h)

theorem mem_jsSet_of_ne {α : Type} {m : JsMap α} {k : String} {v : α} {p : String × α}
    (hp : p ∈ m) (hne : p.1 ≠ k) : p ∈ jsSet m k v := by
  unfold jsSet
  split
  · exact List.mem_map.mpr ⟨p, hp, by simp [hne]⟩
  · exact List.mem_append_left _ hp

theorem jsGet_replace {α : Type} (m : JsMap α) (k i : String) (v : α) :
    jsGet (m.map (fun p => if p.1 == k then (k, v) else p)) i =
      if i = k then (if jsHas m k then some v else none) else jsGet m i := by
  induction m with
  | nil => by_cases h : i = k <;> simp [jsGet, jsHas, h]
  | cons p m ih =>
      rw [List.map_cons]
      by_cases hp : p.1 = k
      · rw [if_pos (show (p.1 == k) = true by simp [hp])]
        rw [jsGet_cons, jsGet_cons, jsHas_cons, ih]
        by_cases hik : i = k
        · subst hik
          simp [hp]
        · have hki : k ≠ i := fun hh => hik hh.symm
          have hpi : p.1 ≠ i := by rw [hp]; exact hki
          simp [hik, hki, hpi]
      · rw [if_neg (show ¬ ((p.1 == k) = true) by simp [hp])]
        rw [jsGet_cons, jsGet_cons, jsHas_cons, ih]
        by_cases hik : i = k
        · subst hik
          simp [hp]
        · by_cases hpi : p.1 = i
          · simp [hik, hpi]
          · simp [hik, hpi]

theorem jsGet_append_of_none {α : Type} {m₁ : JsMap α} {i : String} (m₂ : JsMap α)
    (h : jsGet m₁ i = none) : jsGet (m₁ ++ m₂) i = jsGet m₂ i := by
  induction m₁ with
  | nil => rfl
  | cons p m ih =>
      rw [jsGet_cons] at h
      rw [List.cons_append, jsGet_cons]
      by_cases hp : p.1 = i
      · simp [hp] at h
      · simp only [hp, if_false] at h ⊢
        exact ih h

theorem jsGet_append_of_some {α : Type} {m₁ : JsMap α} {i : String} {w : α} (m₂ : JsMap α)
    (h : jsGet m₁ i = some w) : jsGet (m₁ ++ m₂) i = some w := by
  induction m₁ with
  | nil => simp [jsGet] at h
  | cons p m ih =>
      rw [jsGet_cons] at h
      rw [List.cons_append, jsGet_cons]
      by_cases hp : p.1 = i
      · simpa [hp] using h
      · simp only [hp, if_false] at h ⊢
        exact ih h

theorem jsGet_jsSet {α : Type} (m : JsMap α) (k i : String) (v : α) :
    jsGet (jsSet m k v) i = if i = k then some v else jsGet m i := by
  unfold jsSet
  split
  · rename_i hk
    rw [jsGet_replace]
    by_cases hik : i = k <;> simp [hik, hk]
  · rename_i hk
    have hmn : jsGet m k = none := by
      rcases h : jsGet m k with _ | w
      · rfl
      · exact absurd (by rw [jsHas, h]; rfl) hk
    by_cases hik : i = k
    · subst hik
      rw [jsGet_append_of_none _ hmn, jsGet_cons]
      simp
    · rw [if_neg hik]
      rcases h : jsGet m i with _ | w
      · rw [jsGet_append_of_none _ h, jsGet_cons]
        simp [Ne.symm hik, jsGet]
      · exact jsGet_append_of_some _ h

theorem jsGet_jsSet_self {α : Type} (m : JsMap α) (k : String) (v : α) :
    jsGet (jsSet m k v) k = some v := by
  rw [jsGet_jsSet]
  simp

theorem jsGet_jsSet_ne {α : Type} (m : JsMap α) (k i : String) (v : α) (hne : i ≠ k) :
    jsGet (jsSet m k v) i = jsGet m i := by
  rw [jsGet_jsSet]
  simp [hne]

theorem mem_jsKeys_jsSet {α : Type} (m : JsMap α) (k i : String) (v : α) :
    i ∈ jsKeys (jsSet m k v) ↔ i ∈ jsKeys m ∨ i = k := by
  constructor
  · intro h
    rcases (mem_jsKeys_iff _ _).mp h with ⟨w, hw⟩
    rcases mem_jsSet_elim hw with hm | he
    · exact Or.inl ((mem_jsKeys_iff _ _).mpr ⟨w, hm⟩)
    · right
      injection he with h1 h2
  · intro h
    rcases h with h | h
    · by_cases hik : i = k
      · subst hik
        exact (mem_jsKeys_iff _ _).mpr ⟨v, mem_of_jsGet_eq_some (jsGet_jsSet_self m i v)⟩
      · rcases (mem_jsKeys_iff _ _).mp h with ⟨w, hw⟩
        exact (mem_jsKeys_iff _ _).mpr ⟨w, mem_jsSet_of_ne hw hik⟩
    · subst h
      exact (mem_jsKeys_iff _ _).mpr ⟨v, mem_of_jsGet_eq_some (jsGet_jsSet_self m i v)⟩

theorem mem_jsDelete_iff {α : Type} (m : JsMap α) (k : String) (p : String × α) :
    p ∈ jsDelete m k ↔ p ∈ m ∧ p.1 ≠ k := by
  unfold jsDelete
  rw [List.mem_filter]
  simp

theorem mem_foldl_jsDelete_iff {α : Type} (fds : List String) (m : JsMap α) (p : String × α) :
    p ∈ fds.foldl (fun acc id => jsDelete acc id) m ↔ p ∈ m ∧ p.1 ∉ fds := by
  induction fds generalizing m with
  | nil => simp
  | cons f rest ih =>
      rw [List.foldl_cons, ih, mem_jsDelete_iff]
      constructor
      · rintro ⟨⟨hm, hne⟩, hrest⟩
        exact ⟨hm, by simp [hne, hrest]⟩
      · rintro ⟨hm, hni⟩
        simp only [List.mem_cons, not_or] at hni
        exact ⟨⟨hm, hni.1⟩, hni.2⟩

theorem foldl_jsSet_build {α β : Type} (key : α → String) (val : α → β) :
    ∀ (rs : List α) (acc : JsMap β),
      (∀ x ∈ rs, key x ∉ jsKeys acc) → (rs.map key).Nodup →
      rs.foldl (fun acc x => jsSet acc (key x) (val x)) acc =
        acc ++ rs.map (fun x => (key x, val x)) := by
  intro rs
  induction rs with
  | nil => intro acc _ _; simp
  | cons r rest ih =>
      intro acc hfresh hnd
      rw [List.foldl_cons]
      have hhas : ¬ (jsHas acc (key r) = true) := by
        rw [jsHas_iff]
        exact hfresh r (by simp)
      have hset : jsSet acc (key r) (val r) = acc ++ [(key r, val r)] := by
        unfold jsSet
        rw [if_neg hhas]
      rw [hset]
      simp only [List.map_cons, List.nodup_cons] at hnd
      rw [ih (acc ++ [(key r, val r)]) ?fresh hnd.2]
      · simp
      case fresh =>
        intro x hx
        rw [jsKeys, List.map_append, List.mem_append]
        rintro (h | h)
        · exact hfresh x (by simp [hx]) h
        · simp at h
          exact hnd.1 (h ▸ List.mem_map.mpr ⟨x, hx, rfl⟩)

theorem mem_jsKeys_foldl_jsSet {α : Type} (g : String → α) (fds : List String) :
    ∀ (m : JsMap α) (i : String),
      i ∈ jsKeys (fds.foldl (fun acc id => jsSet acc id (g id)) m) ↔
        i ∈ jsKeys m ∨ i ∈ fds := by
  induction fds with
  | nil => simp
  | cons f rest ih =>
      intro m i
      rw [List.foldl_cons, ih, mem_jsKeys_jsSet]
      simp only [List.mem_cons]
      tauto

theorem mem_foldl_jsSet_elim {α : Type} (g : String → α) (fds : List String) :
    ∀ (m : JsMap α) (p : String × α),
      p ∈ fds.foldl (fun acc id => jsSet acc id (g id)) m →
      p ∈ m ∨ ∃ i ∈ fds, p = (i, g i) := by
  induction fds with
  | nil => intro m p hp; exact Or.inl hp
  | cons f rest ih =>
      intro m p hp
      rw [List.foldl_cons] at hp
      rcases ih _ _ hp with h | ⟨i, hi, hpe⟩
      · rcases mem_jsSet_elim h with h' | h'
        · exact Or.inl h'
        · exact Or.inr ⟨f, by simp, h'⟩
      · exact Or.inr ⟨i, by simp [hi], hpe⟩

theorem mem_foldl_jsSet_of_ne {α : Type} (g : String → α) (fds : List String) :
    ∀ (m : JsMap α) (p : String × α), p ∈ m → p.1 ∉ fds →
      p ∈ fds.foldl (fun acc id => jsSet acc id (g id)) m := by
  induction fds with
  | nil => intro m p hp _; exact hp
  | cons f rest ih =>
      intro m p hp hni
      simp only [List.mem_cons, not_or] at hni
      rw [List.foldl_cons]
      exact ih _ _ (mem_jsSet_of_ne hp hni.1) hni.2

theorem jsValues_map_of_keyedBy {α : Type} {m : JsMap α} {getId : α → String}
    (h : mapKeyedBy m getId) : (jsValues m).map getId = jsKeys m := by
  unfold jsValues jsKeys
  rw [List.map_map]
  exact List.map_congr_left (fun p hp => h.2 p hp)

theorem jsGet_foldl_jsSet_of_not_mem {α : Type} (g : String → α) (fds : List String) :
    ∀ (m : JsMap α) (i : String), i ∉ fds →
      jsGet (fds.foldl (fun acc id => jsSet acc id (g id)) m) i = jsGet m i := by
  induction fds with
  | nil => intro m i _; rfl
  | cons f rest ih =>
      intro m i hni
      simp only [List.mem_cons, not_or] at hni
      rw [List.foldl_cons, ih _ _ hni.2, jsGet_jsSet_ne _ _ _ _ hni.1]

theorem jsGet_foldl_jsSet_of_mem {α : Type} (g : String → α) (fds : List String) :
    ∀ (m : JsMap α) (i : String), i ∈ fds →
      jsGet (fds.foldl (fun acc id => jsSet acc id (g id)) m) i = some (g i) := by
  induction fds with
  | nil => intro m i hi; simp at hi
  | cons f rest ih =>
      intro m i hi
      rw [List.foldl_cons]
      by_cases hir : i ∈ rest
      · exact ih _ _ hir
      · have hif : i = f := by
          rcases List.mem_cons.mp hi with h | h
          · exact h
          · exact absurd h hir
        subst hif
        rw [jsGet_foldl_jsSet_of_not_mem g rest _ _ hir, jsGet_jsSet_self]

theorem resourcesToStore_eq (rm db : JsMap Resource) :
    (getResourceChanges rm db).resourcesToStore =
      ((jsValues rm).filter (fun x => !(jsHas db x.id))).map createStore := rfl

theorem resourcesToUpdate_eq (rm db : JsMap Resource) :
    (getResourceChanges rm db).resourcesToUpdate =
      ((jsValues rm).filter (updateFilter db)).filterMap (createUpdate db) := rfl

theorem resourceIdsToDelete_eq (rm db : JsMap Resource) :
    (getResourceChanges rm db).resourceIdsToDelete =
      ((jsValues db).filter (fun x => !(jsHas rm x.id))).map (·.id) := rfl

/-- Claim C7: the adaptive paginator halves the page size and replays the
same window (same start index) on a payload-too-large error, and resets the
page size to the configured default on a successful fetch.  Concretely,
with default page size 1000, a failure at window (0, 1000) is followed by a
request for (0, 500), and if that succeeds the next request is (500, 1500). -/
theorem C7_paginator_adaptation :
    (∀ s : PaginatorState,
        (paginatorOnPayloadTooLarge s).start = s.start ∧
        (paginatorOnPayloadTooLarge s).pageSize = s.pageSize / 2 ∧
        (paginatorOnPayloadTooLarge s).endIdx = s.start + s.pageSize / 2) ∧
    (∀ P : Nat, ∀ s : PaginatorState,
        (paginatorOnSuccess P s).pageSize = P ∧
        (paginatorOnSuccess P s).start = s.start + s.pageSize) ∧
    paginatorRequests 1000 [false, true, true] = [(0, 1000), (0, 500), (500, 1500)] := by
  refine ⟨fun s => ⟨rfl, rfl, rfl⟩, fun P s => ⟨rfl, rfl⟩, ?_⟩
  decide

/-- Claim C9: the claim is right and the code is wrong.  The event-bus
handler is supposed to treat an event bus with no recorded rules as having
an empty rule sequence, but `eventBusRuleMap.get(arn)` is dereferenced
unconditionally, so a bus absent from the map makes the handler throw
(modelled: `none`) instead of adding no edges.  When the bus has rules, one
associated-with relationship per rule is produced, as the claim states. -/
theorem C9_event_bus_handler :
    eventBusHandlerRelationships [] "arn:aws:events:eu-west-1:111:event-bus/custom" = none ∧
    eventBusHandlerRelationships
        [("arn:aws:events:eu-west-1:111:event-bus/custom", ["rule-1", "rule-2"])]
        "arn:aws:events:eu-west-1:111:event-bus/custom" =
      some [createArnRelationship IS_ASSOCIATED_WITH "rule-1",
            createArnRelationship IS_ASSOCIATED_WITH "rule-2"] := by
  constructor
  · rfl
  · rfl

/-- Claim C2, counterexample: a variable value that resolves through the
resourceId key to an account-public-access-block resource whose
`resourceId` (here `A2`) differs from the owning account id (`A1`).  The
claim says only the combination type = APAB and resourceId = accountId is
suppressed, so an edge should be emitted here; the code suppresses every
APAB match and emits nothing. -/
theorem C2_counterexample :
    jsGet [("arn:apab", c2ApabResource)] "x" = none ∧
    envResolveId [("x_A1_R1", "arn:apab")] [] "A1" "R1" "x" = some "arn:apab" ∧
    c2ApabResource.resourceId ≠ "A1" ∧
    c2ApabResource.resourceType = AWS_S3_ACCOUNT_PUBLIC_ACCESS_BLOCK ∧
    createEnvironmentVariableRelationships [("arn:apab", c2ApabResource)]
      [("x_A1_R1", "arn:apab")] [] "A1" "R1" [("DB", "x")] = [] := by
  refine ⟨rfl, rfl, ?_, rfl, rfl⟩
  decide

/-- Claim C3, counterexample: a variable whose value is the exact ARN of
the owning resource itself (`arn:me`, present in the working-set map with
that id).  The direct-ARN branch has no self or account-public-access-block
filter, so an associated-with edge back to the owning resource is
returned, contradicting the claimed invariant. -/
theorem C3_counterexample :
    createEnvironmentVariableRelationships [("arn:me", c3SelfResource)] [] [] "A1" "R1"
        [("X", "arn:me")] =
      [createAssociatedRelationship (some AWS_LAMBDA_FUNCTION) { arn := some "arn:me" }] := by
  rfl

/-- Claim C8, counterexample: two resources in different accounts carrying
the same `env=prod` tag.  The tag ARN embeds the account id, so tag
synthesis produces two distinct Tag resources for the single distinct
`key=value` pair, each with one relationship, not one Tag resource with
two. -/
theorem C8_counterexample :
    (createTags [c8ResourceOne, c8ResourceTwo]).map (fun t => (t.resourceName, t.id)) =
      [("env=prod", "arn:aws:tags::111111111111:tag/env=prod"),
       ("env=prod", "arn:aws:tags::222222222222:tag/env=prod")] ∧
    (createTags [c8ResourceOne, c8ResourceTwo]).length = 2 := by
  constructor
  · rfl
  · rfl

/-- Claim C1, counterexample: one discovered resource `a`, an empty stored
map, and a store failure for `a`.  The delta id set
`resourcesToStore ∪ resourcesToUpdate ∪ (dbResources minus deletes)` is
`[a]` for every choice of failure lists, but the reconciled working set
drops `a`, so the claimed equality fails for the (allowed) failure choice
`failedStores = [a]`. -/
theorem C1_counterexample :
    (["a"] ⊆ (getResourceChanges [("a", c1Resource)] []).resourcesToStore.map (·.id)) ∧
    (getResourceChanges [("a", c1Resource)] []).resourcesToStore.map (·.id) = ["a"] ∧
    (getResourceChanges [("a", c1Resource)] []).resourcesToUpdate = [] ∧
    (getResourceChanges [("a", c1Resource)] []).resourceIdsToDelete = [] ∧
    processPersistenceFailures [] [c1Resource]
      { failedDeletes := [], failedStores := ["a"] } = [] := by
  refine ⟨?_, rfl, rfl, rfl, rfl⟩
  decide

theorem processPersistenceFailures_eq (db : JsMap Resource) (rs : List Resource)
    (pf : PersistenceFailures) :
    processPersistenceFailures db rs pf =
      jsValues (pf.failedDeletes.foldl (fun acc id => jsSet acc id (jsGet db id))
        (pf.failedStores.foldl (fun acc id => jsDelete acc id)
          (rs.foldl (fun acc x => jsSet acc x.id (some x)) []))) := rfl

/-- The ids carried by the reconciled working set: those ids of the input
list not in `failedStores`, plus the `failedDeletes` ids (restored from the
stored map). -/
theorem processPersistenceFailures_ids_iff (db : JsMap Resource) (rs : List Resource)
    (fs fd : List String) (hwfD : mapKeyedBy db (·.id))
    (hnd : (rs.map (·.id)).Nodup)
    (hfd_db : ∀ j ∈ fd, j ∈ jsKeys db)
    (hfd_rs : ∀ j ∈ fd, j ∉ rs.map (·.id)) :
    ∀ i : String,
      (∃ o ∈ processPersistenceFailures db rs { failedDeletes := fd, failedStores := fs },
          ∃ r : Resource, o = some r ∧ r.id = i) ↔
        ((i ∈ rs.map (·.id) ∧ i ∉ fs) ∨ i ∈ fd) := by
  intro i
  rw [processPersistenceFailures_eq]
  simp only
  have hbuild := foldl_jsSet_build (fun x : Resource => x.id) (fun x => some x) rs []
    (by simp [jsKeys]) hnd
  constructor
  · rintro ⟨o, ho, r, hor, hri⟩
    rcases List.mem_map.mp ho with ⟨p, hp, hpo⟩
    rcases mem_foldl_jsSet_elim _ fd _ _ hp with hp1 | ⟨j, hj, hpe⟩
    · rcases (mem_foldl_jsDelete_iff fs _ p).mp hp1 with ⟨hp0, hpfs⟩
      rw [hbuild, List.nil_append] at hp0
      rcases List.mem_map.mp hp0 with ⟨x, hx, hpx⟩
      left
      have hox : o = some x := by rw [← hpo, ← hpx]
      have hrx : r = x := by
        rw [hox] at hor
        injection hor with h
        exact h.symm
      have hix : i = x.id := by rw [← hri, hrx]
      constructor
      · rw [hix]
        exact List.mem_map.mpr ⟨x, hx, rfl⟩
      · rw [hix]
        have : p.1 = x.id := by rw [← hpx]
        rwa [this] at hpfs
    · right
      have hoj : o = jsGet db j := by rw [← hpo, hpe]
      have : jsGet db j = some r := by rw [← hoj, hor]
      have hrj : r.id = j := hwfD.2 (j, r) (mem_of_jsGet_eq_some this)
      rwa [← hri, hrj]
  · rintro (⟨him, hifs⟩ | hifd)
    · rcases List.mem_map.mp him with ⟨x, hx, hxi⟩
      have hifd : i ∉ fd := fun hc => hfd_rs i hc him
      have hp0 : (x.id, (some x : Option Resource)) ∈
          rs.foldl (fun acc x => jsSet acc x.id (some x)) [] := by
        rw [hbuild, List.nil_append]
        exact List.mem_map.mpr ⟨x, hx, rfl⟩
      have hp1 := (mem_foldl_jsDelete_iff fs _ (x.id, (some x : Option Resource))).mpr
        ⟨hp0, by simpa [hxi] using hifs⟩
      have hp2 := mem_foldl_jsSet_of_ne (fun id => jsGet db id) fd _
        (x.id, (some x : Option Resource)) hp1 (by simpa [hxi] using hifd)
      exact ⟨some x, List.mem_map.mpr ⟨_, hp2, rfl⟩, x, rfl, hxi⟩
    · have hkey : i ∈ jsKeys db := hfd_db i hifd
      rcases Option.isSome_iff_exists.mp ((jsGet_isSome_iff db i).mpr hkey) with ⟨d, hd⟩
      have hdi : d.id = i := hwfD.2 (i, d) (mem_of_jsGet_eq_some hd)
      have hget : jsGet (fd.foldl (fun acc id => jsSet acc id (jsGet db id))
          (fs.foldl (fun acc id => jsDelete acc id)
            (rs.foldl (fun acc x => jsSet acc x.id (some x)) []))) i = some (jsGet db i) :=
        jsGet_foldl_jsSet_of_mem _ fd _ i hifd
      have hmem := mem_of_jsGet_eq_some hget
      exact ⟨jsGet db i, List.mem_map.mpr ⟨_, hmem, rfl⟩, d, hd, hdi⟩

/-- The id set claimed by the spec for the post-crawl store content:
`resourcesToStore ∪ resourcesToUpdate ∪ (dbResources minus deletions)` is,
for well-formed input maps, exactly the id set of the discovered working
set. -/
theorem delta_ids_iff (rm db : JsMap Resource) (hwfR : mapKeyedBy rm (·.id))
    (hwfD : mapKeyedBy db (·.id)) :
    ∀ i : String,
      (i ∈ (getResourceChanges rm db).resourcesToStore.map (·.id) ∨
        i ∈ (getResourceChanges rm db).resourcesToUpdate.map (·.id) ∨
        (∃ d ∈ jsValues db, d.id = i ∧
          i ∉ (getResourceChanges rm db).resourceIdsToDelete)) ↔
        i ∈ (jsValues rm).map (·.id) := by
  intro i
  constructor
  · rintro (h | h | ⟨d, hd, hdi, hnd⟩)
    · rw [resourcesToStore_eq] at h
      rcases List.mem_map.mp h with ⟨so, hso, hsoi⟩
      rcases List.mem_map.mp hso with ⟨x, hx, hxs⟩
      have : so.id = x.id := by rw [← hxs]; rfl
      rw [← hsoi, this]
      exact List.mem_map.mpr ⟨x, (List.mem_filter.mp hx).1, rfl⟩
    · rw [resourcesToUpdate_eq] at h
      rcases List.mem_map.mp h with ⟨u, hu, hui⟩
      rcases List.mem_filterMap.mp hu with ⟨x, hx, hcu⟩
      have hxid : u.id = x.id := by
        unfold createUpdate at hcu
        rcases hget : jsGet db x.id with _ | w
        · rw [hget] at hcu
          simp at hcu
        · rw [hget] at hcu
          simp at hcu
          rw [← hcu]
      rw [← hui, hxid]
      exact List.mem_map.mpr ⟨x, (List.mem_filter.mp hx).1, rfl⟩
    · cases hb : jsHas rm d.id with
      | false =>
          exfalso
          apply hnd
          rw [resourceIdsToDelete_eq]
          refine List.mem_map.mpr ⟨d, List.mem_filter.mpr ⟨hd, ?_⟩, hdi⟩
          simp [hb]
      | true =>
          rw [jsValues_map_of_keyedBy hwfR, ← hdi]
          exact (jsHas_iff rm d.id).mp hb
  · intro him
    rcases List.mem_map.mp him with ⟨x, hx, hxi⟩
    rcases hb : jsHas db x.id with _ | _
    · left
      rw [resourcesToStore_eq]
      refine List.mem_map.mpr ⟨createStore x, List.mem_map.mpr
        ⟨x, List.mem_filter.mpr ⟨hx, by simp [hb]⟩, rfl⟩, hxi⟩
    · right; right
      rcases Option.isSome_iff_exists.mp ((jsGet_isSome_iff db x.id).mpr
        ((jsHas_iff db x.id).mp hb)) with ⟨d, hdg⟩
      have hdmem : (x.id, d) ∈ db := mem_of_jsGet_eq_some hdg
      have hdi : d.id = x.id := hwfD.2 _ hdmem
      refine ⟨d, List.mem_map.mpr ⟨_, hdmem, rfl⟩, by rw [hdi, hxi], ?_⟩
      rw [resourceIdsToDelete_eq]
      intro hc
      rcases List.mem_map.mp hc with ⟨e, he, hei⟩
      rcases List.mem_filter.mp he with ⟨hev, hef⟩
      have : jsHas rm e.id = true := by
        rw [jsHas_iff, ← jsValues_map_of_keyedBy hwfR, hei]
        exact him
      simp [this] at hef

/-- Claim C1, amended: the id set of
`resourcesToStore ∪ resourcesToUpdate ∪ (dbResources minus deletions)`
equals the id set of the reconciled working set only after removing the
failed stores and adding back the failed deletes; as originally stated the
equality holds exactly when both failure lists are empty. -/
theorem C1_amended :
    ∀ (rm db : JsMap Resource) (fs fd : List String),
      mapKeyedBy rm (·.id) →
      mapKeyedBy db (·.id) →
      fs ⊆ (getResourceChanges rm db).resourcesToStore.map (·.id) →
      fd ⊆ (getResourceChanges rm db).resourceIdsToDelete →
      ∀ i : String,
        (∃ o ∈ processPersistenceFailures db (jsValues rm)
            { failedDeletes := fd, failedStores := fs },
            ∃ r : Resource, o = some r ∧ r.id = i) ↔
          (((i ∈ (getResourceChanges rm db).resourcesToStore.map (·.id) ∨
              i ∈ (getResourceChanges rm db).resourcesToUpdate.map (·.id) ∨
              (∃ d ∈ jsValues db, d.id = i ∧
                i ∉ (getResourceChanges rm db).resourceIdsToDelete)) ∧
            i ∉ fs) ∨ i ∈ fd) := by
  intro rm db fs fd hwfR hwfD hfs hfd i
  have hnd : ((jsValues rm).map (·.id)).Nodup := by
    rw [jsValues_map_of_keyedBy hwfR]
    exact hwfR.1
  have hfd_db : ∀ j ∈ fd, j ∈ jsKeys db := by
    intro j hj
    have := hfd hj
    rw [resourceIdsToDelete_eq] at this
    rcases List.mem_map.mp this with ⟨d, hd, hdi⟩
    rcases List.mem_filter.mp hd with ⟨hdv, _⟩
    rw [← jsValues_map_of_keyedBy hwfD]
    rw [← hdi]
    exact List.mem_map.mpr ⟨d, hdv, rfl⟩
  have hfd_rs : ∀ j ∈ fd, j ∉ (jsValues rm).map (·.id) := by
    intro j hj hc
    have := hfd hj
    rw [resourceIdsToDelete_eq] at this
    rcases List.mem_map.mp this with ⟨d, hd, hdi⟩
    rcases List.mem_filter.mp hd with ⟨_, hdf⟩
    have : jsHas rm d.id = true := by
      rw [jsHas_iff, ← jsValues_map_of_keyedBy hwfR, hdi]
      exact hc
    simp [this] at hdf
  rw [processPersistenceFailures_ids_iff db (jsValues rm) fs fd hwfD hnd hfd_db hfd_rs i,
    delta_ids_iff rm db hwfR hwfD i]

/-- Witness for C1 amended: working set `[a]`, stored set `[b]`, with `a`
failing to store and `b` failing to delete. -/
theorem C1_amended_witness :
    (mapKeyedBy [("a", c1Resource)] (·.id) ∧
      mapKeyedBy [("b", c1DbResource)] (·.id) ∧
      ["a"] ⊆ (getResourceChanges [("a", c1Resource)]
        [("b", c1DbResource)]).resourcesToStore.map (·.id) ∧
      ["b"] ⊆ (getResourceChanges [("a", c1Resource)]
        [("b", c1DbResource)]).resourceIdsToDelete) ∧
    ((∃ o ∈ processPersistenceFailures [("b", c1DbResource)]
        (jsValues [("a", c1Resource)])
        { failedDeletes := ["b"], failedStores := ["a"] },
        ∃ r : Resource, o = some r ∧ r.id = "a") ↔
      (((("a" : String) ∈ (getResourceChanges [("a", c1Resource)]
          [("b", c1DbResource)]).resourcesToStore.map (·.id) ∨
        ("a" : String) ∈ (getResourceChanges [("a", c1Resource)]
          [("b", c1DbResource)]).resourcesToUpdate.map (·.id) ∨
        (∃ d ∈ jsValues [("b", c1DbResource)], d.id = "a" ∧
          ("a" : String) ∉ (getResourceChanges [("a", c1Resource)]
            [("b", c1DbResource)]).resourceIdsToDelete)) ∧
        ("a" : String) ∉ ["a"]) ∨ ("a" : String) ∈ ["b"])) := by
  refine ⟨⟨?_, ?_, ?_, ?_⟩, ?_⟩
  · decide
  · decide
  · decide
  · decide
  · exact C1_amended [("a", c1Resource)] [("b", c1DbResource)] ["a"] ["b"]
      (by decide) (by decide) (by decide) (by decide) "a"

/-- Claim C10: only the delete-resources and store-resources phases feed
persistence-failure reconciliation.  The failure summary built by the
persister is literally independent of the update-resources,
delete-relationships and store-relationships phase results, and a working
set resource whose id is in neither failure list survives reconciliation
with its newly discovered value. -/
theorem C10_update_failures_discarded :
    (∀ (d : MutationResult (List String)) (u u' : MutationResult (List UpdateObject))
        (s : MutationResult (List StoreObject)) (dr dr' sr sr' : MutationResult (List String)),
        persistResourcesAndRelationships d u s dr sr =
          persistResourcesAndRelationships d u' s dr' sr') ∧
    (∀ (d : MutationResult (List String)) (u : MutationResult (List UpdateObject))
        (s : MutationResult (List StoreObject)) (dr sr : MutationResult (List String))
        (dbResourcesMap : JsMap Resource) (resources : List Resource) (r : Resource),
        (resources.map (·.id)).Nodup →
        r ∈ resources →
        r.id ∉ (persistResourcesAndRelationships d u s dr sr).failedStores →
        r.id ∉ (persistResourcesAndRelationships d u s dr sr).failedDeletes →
        some r ∈ processPersistenceFailures dbResourcesMap resources
          (persistResourcesAndRelationships d u s dr sr)) := by
  constructor
  · intro d u u' s dr dr' sr sr'
    rfl
  · intro d u s dr sr dbResourcesMap resources r hnd hr hs hd
    unfold processPersistenceFailures
    set pf := persistResourcesAndRelationships d u s dr sr with hpf
    have hbuild := foldl_jsSet_build (fun x : Resource => x.id) (fun x => some x) resources []
      (by simp [jsKeys]) hnd
    have hmem0 : (r.id, some r) ∈
        resources.foldl (fun acc x => jsSet acc x.id (some x)) [] := by
      rw [hbuild]
      simp only [List.nil_append]
      exact List.mem_map.mpr ⟨r, hr, rfl⟩
    have hmem1 := (mem_foldl_jsDelete_iff pf.failedStores _ (r.id, some r)).mpr ⟨hmem0, hs⟩
    have hmem2 := mem_foldl_jsSet_of_ne (fun id => jsGet dbResourcesMap id)
      pf.failedDeletes _ (r.id, some r) hmem1 hd
    exact List.mem_map.mpr ⟨(r.id, some r), hmem2, rfl⟩

/-- Witness for C10: a concrete run with one discovered resource `a`, a
failed update batch, a failed delete batch (`x`) and a failed store batch
(`zz`); the resource `a` survives reconciliation unchanged. -/
theorem C10_witness :
    (([c1Resource].map (·.id)).Nodup ∧ c1Resource ∈ [c1Resource] ∧
      c1Resource.id ∉ (persistResourcesAndRelationships { errors := [c10DeleteError] }
        { errors := [c10UpdateError] } { errors := [c10StoreError] }
        { errors := [] } { errors := [] }).failedStores ∧
      c1Resource.id ∉ (persistResourcesAndRelationships { errors := [c10DeleteError] }
        { errors := [c10UpdateError] } { errors := [c10StoreError] }
        { errors := [] } { errors := [] }).failedDeletes) ∧
    some c1Resource ∈ processPersistenceFailures [] [c1Resource]
      (persistResourcesAndRelationships { errors := [c10DeleteError] }
        { errors := [c10UpdateError] } { errors := [c10StoreError] }
        { errors := [] } { errors := [] }) := by
  refine ⟨⟨by decide, by decide, by decide, by decide⟩, ?_⟩
  exact C10_update_failures_discarded.2 _ _ _ _ _ [] [c1Resource] c1Resource
    (by decide) (by decide) (by decide) (by decide)

/-- Claim C5: for a projected resource of a hash-set type present in both
the discovered and the stored map, membership in `resourcesToUpdate` holds
exactly when its `md5Hash` differs from the stored hash; neither
`supplementaryConfiguration` nor `configurationItemCaptureTime` influences
the decision for these types. -/
theorem C5_hash_type_update_iff_md5 :
    ∀ (resourcesMap dbResourcesMap : JsMap Resource) (r dbResource : Resource),
      mapKeyedBy resourcesMap (·.id) →
      mapKeyedBy dbResourcesMap (·.id) →
      jsGet resourcesMap r.id = some r →
      jsGet dbResourcesMap r.id = some dbResource →
      resourceTypesToHash.contains r.resourceType = true →
      (r.id ∈ (getResourceChanges resourcesMap dbResourcesMap).resourcesToUpdate.map (·.id) ↔
        r.md5Hash ≠ dbResource.md5Hash) := by
  intro resourcesMap dbResourcesMap r dbResource hwfR hwfD hr hdb hhash
  have hfilter : updateFilter dbResourcesMap r = (r.md5Hash != dbResource.md5Hash) := by
    unfold updateFilter
    rw [hdb]
    exact if_pos hhash
  constructor
  · intro hmem
    rcases List.mem_map.mp hmem with ⟨u, hu, huid⟩
    rcases List.mem_filterMap.mp hu with ⟨x, hx, hcu⟩
    rcases List.mem_filter.mp hx with ⟨hxv, hxf⟩
    have hxid : u.id = x.id := by
      unfold createUpdate at hcu
      rcases hget : jsGet dbResourcesMap x.id with _ | w
      · rw [hget] at hcu
        simp at hcu
      · rw [hget] at hcu
        simp at hcu
        rw [← hcu]
    have hxr : x = r := by
      rcases List.mem_map.mp hxv with ⟨p, hp, hpx⟩
      have hpid : p.1 = x.id := by rw [← (hwfR.2 p hp), hpx]
      have : jsGet resourcesMap r.id = some x := by
        have hx' : (r.id, x) ∈ resourcesMap := by
          have hpe : p = (x.id, x) := by
            cases p
            simp only at hpx hpid
            simp [hpx, hpid]
          rw [hpe] at hp
          have hxid' : x.id = r.id := by rw [← hxid, huid]
          rwa [hxid'] at hp
        exact jsGet_eq_some_of_mem hwfR.1 hx'
      rw [hr] at this
      injection this with h
      exact h.symm
    rw [hxr, hfilter] at hxf
    simpa using hxf
  · intro hne
    have hrv : r ∈ jsValues resourcesMap :=
      List.mem_map.mpr ⟨(r.id, r), mem_of_jsGet_eq_some hr, rfl⟩
    have hfl : updateFilter dbResourcesMap r = true := by
      rw [hfilter]
      simpa using hne
    have hcu : createUpdate dbResourcesMap r =
        some { id := r.id, md5Hash := r.md5Hash,
               properties := r.properties.filter
                 (fun kv => getProp dbResource.properties kv.1 ≠ some kv.2) } := by
      unfold createUpdate
      rw [hdb]
      rfl
    refine List.mem_map.mpr ⟨_, List.mem_filterMap.mpr ⟨r, List.mem_filter.mpr ⟨hrv, hfl⟩, hcu⟩, rfl⟩

/-- Witness for C5: a gateway method present in both maps with hashes
`newhash` and `oldhash`; it is reported for update. -/
theorem C5_witness :
    (mapKeyedBy [("arn:m1", c5Resource)] (·.id) ∧
      mapKeyedBy [("arn:m1", c5DbResource)] (·.id) ∧
      jsGet [("arn:m1", c5Resource)] c5Resource.id = some c5Resource ∧
      jsGet [("arn:m1", c5DbResource)] c5Resource.id = some c5DbResource ∧
      resourceTypesToHash.contains c5Resource.resourceType = true) ∧
    (c5Resource.id ∈
        (getResourceChanges [("arn:m1", c5Resource)]
          [("arn:m1", c5DbResource)]).resourcesToUpdate.map (·.id) ↔
      c5Resource.md5Hash ≠ c5DbResource.md5Hash) := by
  refine ⟨⟨?_, ?_, ?_, ?_, ?_⟩, ?_⟩
  · decide
  · decide
  · decide
  · decide
  · decide
  · exact C5_hash_type_update_iff_md5 _ _ _ _ (by decide) (by decide) (by decide)
      (by decide) (by decide)

theorem list_contains_iff (l : List String) (a : String) : l.contains a = true ↔ a ∈ l := by
  simp

theorem contains_iff_mem {α : Type} [BEq α] [LawfulBEq α] (l : List α) (a : α) :
    l.contains a = true ↔ a ∈ l := by
  simp

theorem jsKeys_replace {α : Type} (m : JsMap α) (k : String) (v : α) :
    jsKeys (m.map (fun p => if p.1 == k then (k, v) else p)) = jsKeys m := by
  induction m with
  | nil => rfl
  | cons p m ih =>
      rw [List.map_cons]
      by_cases hp : p.1 = k
      · rw [if_pos (show (p.1 == k) = true by simp [hp])]
        unfold jsKeys at ih ⊢
        simp [ih, hp]
        intro a b _
        by_cases hab : a = k
        · simp [hab]
        · simp [hab]
      · rw [if_neg (show ¬ ((p.1 == k) = true) by simp [hp])]
        unfold jsKeys at ih ⊢
        simp [ih]
        intro a b _
        by_cases hab : a = k
        · simp [hab]
        · simp [hab]

theorem jsKeys_jsSet_eq {α : Type} (m : JsMap α) (k : String) (v : α) :
    jsKeys (jsSet m k v) = if jsHas m k then jsKeys m else jsKeys m ++ [k] := by
  unfold jsSet
  split
  · rw [jsKeys_replace]
  · unfold jsKeys
    simp

theorem mapKeyedBy_jsSet {α : Type} {m : JsMap α} {getId : α → String}
    (h : mapKeyedBy m getId) {k : String} {v : α} (hv : getId v = k) :
    mapKeyedBy (jsSet m k v) getId := by
  constructor
  · rw [jsKeys_jsSet_eq]
    split
    · exact h.1
    · rename_i hk
      rw [List.nodup_append]
      refine ⟨h.1, by simp, ?_⟩
      intro a ha hb
      simp at hb
      rw [hb] at ha
      exact hk ((jsHas_iff m k).mpr ha)
  · intro q hq
    rcases mem_jsSet_elim hq with hm | he
    · exact h.2 q hm
    · rw [he]
      simpa using hv

theorem mapKeyedBy_tagStepPair {acc : JsMap TagResource}
    (h : mapKeyedBy acc (·.id)) (p : TaggedResource × TagKeyValue) :
    mapKeyedBy (tagStepPair acc p) (·.id) := by
  unfold tagStepPair createTagsStep
  rcases hg : jsGet acc (createTag p.1.accountId p.2).id with _ | existing
  · simp only [hg]
    exact mapKeyedBy_jsSet h rfl
  · simp only [hg]
    exact mapKeyedBy_jsSet h (h.2 (_, existing) (mem_of_jsGet_eq_some hg))

theorem mapKeyedBy_tagFold (pairs : List (TaggedResource × TagKeyValue)) :
    ∀ acc, mapKeyedBy acc (·.id) → mapKeyedBy (pairs.foldl tagStepPair acc) (·.id) := by
  induction pairs with
  | nil => intro acc h; exact h
  | cons p rest ih =>
      intro acc h
      rw [List.foldl_cons]
      exact ih _ (mapKeyedBy_tagStepPair h p)

theorem jsValues_filter_eq {α : Type} (getId : α → String) :
    ∀ (m : JsMap α), mapKeyedBy m getId → ∀ tid : String,
      (jsValues m).filter (fun c => getId c == tid) =
        (match jsGet m tid with | some c => [c] | none => []) := by
  intro m
  induction m with
  | nil => intro _ _; rfl
  | cons q m ih =>
      intro h tid
      have hq : getId q.2 = q.1 := h.2 q (by simp)
      have hnd : (jsKeys (q :: m)).Nodup := h.1
      unfold jsKeys at hnd
      rw [List.map_cons, List.nodup_cons] at hnd
      have hm : mapKeyedBy m getId := ⟨hnd.2, fun p hp => h.2 p (by simp [hp])⟩
      rw [jsGet_cons]
      show (q.2 :: jsValues m).filter (fun c => getId c == tid) = _
      rw [List.filter_cons]
      by_cases hqt : q.1 = tid
      · have hc : (getId q.2 == tid) = true := by simp [hq, hqt]
        rw [if_pos hc, if_pos hqt]
        have hnone : jsGet m tid = none := by
          rw [jsGet_eq_none_iff]
          rw [← hqt]
          exact hnd.1
        rw [ih hm tid, hnone]
      · have hc : ¬ ((getId q.2 == tid) = true) := by simp [hq, hqt]
        rw [if_neg hc, if_neg hqt]
        exact ih hm tid

theorem tags_inner_foldl (r : TaggedResource) :
    ∀ (ts : List TagKeyValue) (acc : JsMap TagResource),
      ts.foldl (createTagsStep r) acc = (ts.map (fun t => (r, t))).foldl tagStepPair acc := by
  intro ts
  induction ts with
  | nil => intro _; rfl
  | cons t rest ih =>
      intro acc
      rw [List.foldl_cons, List.map_cons, List.foldl_cons]
      exact ih _

theorem createTags_eq_pairs (rs : List TaggedResource) :
    createTags rs = jsValues ((tagPairs rs).foldl tagStepPair []) := by
  unfold createTags tagPairs
  congr 1
  suffices h : ∀ acc, rs.foldl (fun acc r => r.tags.foldl (createTagsStep r) acc) acc =
      (rs.flatMap (fun r => r.tags.map (fun t => (r, t)))).foldl tagStepPair acc from h []
  induction rs with
  | nil => intro _; rfl
  | cons r rest ih =>
      intro acc
      rw [List.foldl_cons, List.flatMap_cons, List.foldl_append, tags_inner_foldl, ih]

theorem tagStepPair_jsGet (acc : JsMap TagResource) (p : TaggedResource × TagKeyValue)
    (tid : String) :
    jsGet (tagStepPair acc p) tid =
      if (createTag p.1.accountId p.2).id = tid then
        some (match jsGet acc tid with
          | some t => { t with relationships := t.relationships ++ [tagRelEntry p.1] }
          | none => { createTag p.1.accountId p.2 with
              relationships :=
                (createTag p.1.accountId p.2).relationships ++ [tagRelEntry p.1] })
      else jsGet acc tid := by
  unfold tagStepPair createTagsStep
  by_cases htid : (createTag p.1.accountId p.2).id = tid
  · rw [if_pos htid]
    rcases hacc : jsGet acc (createTag p.1.accountId p.2).id with _ | existing
    · simp only [hacc]
      rw [jsGet_jsSet, if_pos htid.symm]
      rw [htid] at hacc
      rw [hacc]
    · simp only [hacc]
      rw [jsGet_jsSet, if_pos htid.symm]
      rw [htid] at hacc
      rw [hacc]
  · rw [if_neg htid]
    rcases hacc : jsGet acc (createTag p.1.accountId p.2).id with _ | existing
    · simp only [hacc]
      rw [jsGet_jsSet, if_neg (fun hh => htid hh.symm)]
    · simp only [hacc]
      rw [jsGet_jsSet, if_neg (fun hh => htid hh.symm)]

theorem tagContributions_cons (p : TaggedResource × TagKeyValue)
    (rest : List (TaggedResource × TagKeyValue)) (tid : String) :
    tagContributions (p :: rest) tid =
      (if (createTag p.1.accountId p.2).id = tid then [tagRelEntry p.1] else []) ++
        tagContributions rest tid := by
  unfold tagContributions
  rw [List.filterMap_cons]
  by_cases htid : (createTag p.1.accountId p.2).id = tid
  · simp [htid]
  · simp [htid]

theorem firstTagPair_cons (p : TaggedResource × TagKeyValue)
    (rest : List (TaggedResource × TagKeyValue)) (tid : String) :
    firstTagPair (p :: rest) tid =
      if (createTag p.1.accountId p.2).id = tid then some p else firstTagPair rest tid := by
  unfold firstTagPair
  by_cases htid : (createTag p.1.accountId p.2).id = tid
  · rw [if_pos htid, List.find?_cons_of_pos _ (by simp [htid])]
  · rw [if_neg htid, List.find?_cons_of_neg _ (by simp [htid])]

theorem tagFold_jsGet (pairs : List (TaggedResource × TagKeyValue)) :
    ∀ (acc : JsMap TagResource) (tid : String),
      jsGet (pairs.foldl tagStepPair acc) tid =
        (match jsGet acc tid with
          | some t => some { t with relationships := t.relationships ++ tagContributions pairs tid }
          | none =>
              match firstTagPair pairs tid with
              | none => none
              | some p => some { createTag p.1.accountId p.2 with
                  relationships := tagContributions pairs tid }) := by
  induction pairs with
  | nil =>
      intro acc tid
      rcases h : jsGet acc tid with _ | t
      · simp [h, firstTagPair]
      · simp [h, tagContributions]
  | cons p rest ih =>
      intro acc tid
      rw [List.foldl_cons, ih, tagStepPair_jsGet, tagContributions_cons, firstTagPair_cons]
      by_cases htid : (createTag p.1.accountId p.2).id = tid
      · rw [if_pos htid, if_pos htid, if_pos htid]
        rcases hacc : jsGet acc tid with _ | t
        · simp [createTag]
        · simp
      · rw [if_neg htid, if_neg htid, if_neg htid]
        rcases hacc : jsGet acc tid with _ | t
        · rfl
        · simp

theorem filterMap_flatMap {α β γ : Type} (l : List α) (g : α → List β) (f : β → Option γ) :
    (l.flatMap g).filterMap f = l.flatMap (fun a => (g a).filterMap f) := by
  induction l with
  | nil => rfl
  | cons a rest ih => simp [List.flatMap_cons, List.filterMap_append, ih]

theorem filterMap_congr_mem {α β : Type} {l : List α} {f g : α → Option β}
    (h : ∀ a ∈ l, f a = g a) : l.filterMap f = l.filterMap g := by
  induction l with
  | nil => rfl
  | cons a rest ih =>
      rw [List.filterMap_cons, List.filterMap_cons, h a (by simp),
        ih (fun a ha => h a (by simp [ha]))]

theorem filterMap_if_eq_of_not_mem {α β : Type} [DecidableEq α] (a : α) (b : β) :
    ∀ l : List α, a ∉ l →
      l.filterMap (fun t => if t = a then some b else none) = [] := by
  intro l
  induction l with
  | nil => intro _; rfl
  | cons x rest ih =>
      intro hna
      simp only [List.mem_cons, not_or] at hna
      rw [List.filterMap_cons, if_neg (fun hh => hna.1 hh.symm)]
      exact ih hna.2

theorem filterMap_if_eq_of_nodup {α β : Type} [DecidableEq α] (a : α) (b : β) :
    ∀ l : List α, l.Nodup →
      l.filterMap (fun t => if t = a then some b else none) =
        (if a ∈ l then [b] else []) := by
  intro l
  induction l with
  | nil => intro _; rfl
  | cons x rest ih =>
      intro hnd
      rw [List.nodup_cons] at hnd
      rw [List.filterMap_cons]
      by_cases hxa : x = a
      · rw [if_pos hxa, if_pos (by simp [hxa])]
        rw [filterMap_if_eq_of_not_mem a b rest (by rw [← hxa]; exact hnd.1)]
      · rw [if_neg hxa, ih hnd.2]
        by_cases har : a ∈ rest
        · rw [if_pos har, if_pos (by simp [har])]
        · rw [if_neg har, if_neg ?hcond]
          case hcond =>
            simp only [List.mem_cons, not_or]
            exact ⟨fun hh => hxa hh.symm, har⟩

theorem flatMap_if_singleton {α β : Type} (c : α → Bool) (f : α → β) :
    ∀ l : List α, l.flatMap (fun a => if c a then [f a] else []) = (l.filter c).map f := by
  intro l
  induction l with
  | nil => rfl
  | cons a rest ih =>
      rw [List.flatMap_cons, List.filter_cons, ih]
      by_cases hc : c a
      · simp [hc]
      · simp [hc]

theorem flatMap_congr_mem {α β : Type} {l : List α} {f g : α → List β}
    (h : ∀ a ∈ l, f a = g a) : l.flatMap f = l.flatMap g := by
  induction l with
  | nil => rfl
  | cons a rest ih =>
      rw [List.flatMap_cons, List.flatMap_cons, h a (by simp),
        ih (fun a ha => h a (by simp [ha]))]

theorem filterMap_const_none {α β : Type} :
    ∀ l : List α, l.filterMap (fun _ => (none : Option β)) = [] := by
  intro l
  induction l with
  | nil => rfl
  | cons a rest ih => rw [List.filterMap_cons]; exact ih

theorem mem_tagPairs {rs : List TaggedResource} {p : TaggedResource × TagKeyValue} :
    p ∈ tagPairs rs ↔ p.1 ∈ rs ∧ p.2 ∈ p.1.tags := by
  unfold tagPairs
  rw [List.mem_flatMap]
  constructor
  · rintro ⟨r, hr, hp⟩
    rcases List.mem_map.mp hp with ⟨t, ht, hpe⟩
    rw [← hpe]
    exact ⟨hr, ht⟩
  · rintro ⟨h1, h2⟩
    exact ⟨p.1, h1, List.mem_map.mpr ⟨p.2, h2, by simp⟩⟩

/-- Claim C8, amended: tag synthesis produces exactly one Tag resource per
distinct (accountId, key=value) pair occurring in the working set (the tag
ARN embeds the account id, so the same key=value in two accounts yields two
Tag resources), and that Tag resource carries exactly one associated-with
relationship entry per resource of that account carrying the tag. -/
theorem C8_amended :
    ∀ (rs : List TaggedResource) (acct k v : String),
      (∀ p ∈ tagPairs rs,
          (createTag p.1.accountId p.2).id = (createTag acct { key := k, value := v }).id →
          p.1.accountId = acct ∧ p.2 = { key := k, value := v }) →
      (∀ r ∈ rs, r.tags.Nodup) →
      (createTags rs).filter
          (fun c => c.id == (createTag acct { key := k, value := v }).id) =
        (if rs.filter (fun r => r.accountId == acct &&
              r.tags.contains { key := k, value := v }) = []
          then []
          else [{ createTag acct { key := k, value := v } with
              relationships :=
                (rs.filter (fun r => r.accountId == acct &&
                  r.tags.contains { key := k, value := v })).map tagRelEntry }]) := by
  intro rs acct k v hinj hnodup
  have hwf : mapKeyedBy ((tagPairs rs).foldl tagStepPair []) (·.id) :=
    mapKeyedBy_tagFold (tagPairs rs) [] ⟨by simp [jsKeys], by simp⟩
  rw [createTags_eq_pairs]
  rw [jsValues_filter_eq (fun c : TagResource => c.id) _ hwf
    ((createTag acct { key := k, value := v }).id)]
  have hget : jsGet ((tagPairs rs).foldl tagStepPair [])
      ((createTag acct { key := k, value := v }).id) =
      (match firstTagPair (tagPairs rs) ((createTag acct { key := k, value := v }).id) with
        | none => none
        | some p => some { createTag p.1.accountId p.2 with
            relationships :=
              tagContributions (tagPairs rs)
                ((createTag acct { key := k, value := v }).id) }) := by
    rw [tagFold_jsGet]
    rfl
  rw [hget]
  have hcontrib : tagContributions (tagPairs rs)
      ((createTag acct { key := k, value := v }).id) =
      (rs.filter (fun r => r.accountId == acct &&
        r.tags.contains { key := k, value := v })).map tagRelEntry := by
    unfold tagContributions tagPairs
    rw [filterMap_flatMap]
    rw [flatMap_congr_mem (g := fun r => if r.accountId == acct &&
        r.tags.contains { key := k, value := v } then [tagRelEntry r] else []) ?inner]
    · exact flatMap_if_singleton _ _ rs
    case inner =>
      intro r hr
      rw [List.filterMap_map]
      have hcg : ∀ t ∈ r.tags,
          ((fun p : TaggedResource × TagKeyValue =>
            if (createTag p.1.accountId p.2).id =
                (createTag acct { key := k, value := v }).id
            then some (tagRelEntry p.1) else none) ∘ (fun t => (r, t))) t =
          (fun t => if r.accountId = acct ∧ t = { key := k, value := v }
            then some (tagRelEntry r) else none) t := by
        intro t ht
        simp only [Function.comp]
        by_cases hcond : (createTag r.accountId t).id =
            (createTag acct { key := k, value := v }).id
        · rw [if_pos hcond, if_pos]
          exact hinj (r, t) (mem_tagPairs.mpr ⟨hr, ht⟩) hcond
        · rw [if_neg hcond, if_neg]
          rintro ⟨h1, h2⟩
          exact hcond (by rw [h1, h2])
      rw [filterMap_congr_mem hcg]
      by_cases hacct : r.accountId = acct
      · have : (fun t => if r.accountId = acct ∧ t = { key := k, value := v }
            then some (tagRelEntry r) else none) =
            (fun t : TagKeyValue => if t = { key := k, value := v }
              then some (tagRelEntry r) else none) := by
          funext t
          by_cases ht : t = { key := k, value := v }
          · rw [if_pos ⟨hacct, ht⟩, if_pos ht]
          · rw [if_neg (fun hh => ht hh.2), if_neg ht]
        rw [this, filterMap_if_eq_of_nodup _ _ _ (hnodup r hr)]
        by_cases hmem : ({ key := k, value := v } : TagKeyValue) ∈ r.tags
        · rw [if_pos hmem]
          simp [hacct, hmem]
        · rw [if_neg hmem]
          simp [hmem]
      · have : (fun t => if r.accountId = acct ∧ t = { key := k, value := v }
            then some (tagRelEntry r) else none) =
            (fun _ : TagKeyValue => (none : Option TagRelEntry)) := by
          funext t
          rw [if_neg (fun hh => hacct hh.1)]
        rw [this, filterMap_const_none]
        simp [hacct]
  rcases hfirst : firstTagPair (tagPairs rs)
      ((createTag acct { key := k, value := v }).id) with _ | p
  · simp only
    rw [if_pos]
    rcases hcar : rs.filter (fun r => r.accountId == acct &&
        r.tags.contains { key := k, value := v }) with _ | ⟨r0, rrest⟩
    · exact hcar
    · exfalso
      have hr0 : r0 ∈ rs.filter (fun r => r.accountId == acct &&
          r.tags.contains { key := k, value := v }) := by rw [hcar]; simp
      rcases List.mem_filter.mp hr0 with ⟨hr0rs, hr0c⟩
      simp only [Bool.and_eq_true, beq_iff_eq] at hr0c
      have hpair : (r0, ({ key := k, value := v } : TagKeyValue)) ∈ tagPairs rs :=
        mem_tagPairs.mpr ⟨hr0rs, by simpa using hr0c.2⟩
      have : (firstTagPair (tagPairs rs)
          ((createTag acct { key := k, value := v }).id)).isSome = true := by
        unfold firstTagPair
        rw [List.find?_isSome]
        refine ⟨(r0, { key := k, value := v }), hpair, ?_⟩
        simp [hr0c.1]
      rw [hfirst] at this
      simp at this
  · simp only
    have hp := List.find?_some hfirst
    have hpmem : p ∈ tagPairs rs := List.mem_of_find?_eq_some hfirst
    simp only [beq_iff_eq] at hp
    rcases hinj p hpmem hp with ⟨hpa, hpt⟩
    have hcar : p.1 ∈ rs.filter (fun r => r.accountId == acct &&
        r.tags.contains { key := k, value := v }) := by
      refine List.mem_filter.mpr ⟨(mem_tagPairs.mp hpmem).1, ?_⟩
      simp only [Bool.and_eq_true, beq_iff_eq]
      refine ⟨hpa, ?_⟩
      have := (mem_tagPairs.mp hpmem).2
      rw [hpt] at this
      exact (contains_iff_mem _ _).mpr this
    rw [if_neg (List.ne_nil_of_mem hcar)]
    rw [hcontrib, hpa, hpt]

/-- Witness for C8 amended: the two `env=prod` resources of the
counterexample; in account `111111111111` exactly one Tag resource is
produced, carrying one relationship (to the resource of that account). -/
theorem C8_amended_witness :
    ((∀ p ∈ tagPairs [c8ResourceOne, c8ResourceTwo],
        (createTag p.1.accountId p.2).id =
          (createTag "111111111111" { key := "env", value := "prod" }).id →
        p.1.accountId = "111111111111" ∧ p.2 = { key := "env", value := "prod" }) ∧
      (∀ r ∈ [c8ResourceOne, c8ResourceTwo], r.tags.Nodup)) ∧
    (createTags [c8ResourceOne, c8ResourceTwo]).filter
        (fun c => c.id == (createTag "111111111111" { key := "env", value := "prod" }).id) =
      (if [c8ResourceOne, c8ResourceTwo].filter (fun r => r.accountId == "111111111111" &&
            r.tags.contains { key := "env", value := "prod" }) = []
        then []
        else [{ createTag "111111111111" { key := "env", value := "prod" } with
            relationships := ([c8ResourceOne, c8ResourceTwo].filter
              (fun r => r.accountId == "111111111111" &&
                r.tags.contains { key := "env", value := "prod" })).map tagRelEntry }]) := by
  refine ⟨⟨by decide, by decide⟩, ?_⟩
  exact C8_amended [c8ResourceOne, c8ResourceTwo] "111111111111" "env" "prod"
    (by decide) (by decide)


theorem foldl_append_eq_flatMap {α β : Type} (f : α → List β) (l : List α) :
    ∀ acc : List β, l.foldl (fun acc x => acc ++ f x) acc = acc ++ l.flatMap f := by
  induction l with
  | nil => intro acc; simp
  | cons x rest ih => intro acc; rw [List.foldl_cons, ih]; simp

/-- The environment-variable reduce appends the per-value relationships in
order, so the result is the flat map over the variable values. -/
theorem createEnvironmentVariableRelationships_eq_flatMap
    (resourceMap : JsMap LookupResource) (envMap endpointMap : JsMap String)
    (accountId awsRegion : String) (envVariables : List (String × String)) :
    createEnvironmentVariableRelationships resourceMap envMap endpointMap
        accountId awsRegion envVariables =
      (envVariables.map (·.2)).flatMap
        (envRelationshipsForValue resourceMap envMap endpointMap accountId awsRegion) := by
  unfold createEnvironmentVariableRelationships
  rw [foldl_append_eq_flatMap]
  simp

/-- Claim C2, amended: for a variable value that is not a direct ARN match
and resolves through the lookup maps to a resource in the working set, an
associated-with relationship is added except exactly when the resolved
resource has resourceId equal to the owning accountId OR has the
S3 account-public-access-block type (the code suppresses the disjunction,
not only the conjunction the claim states). -/
theorem C2_amended :
    ∀ (resourceMap : JsMap LookupResource) (envMap endpointMap : JsMap String)
      (accountId awsRegion : String) (envVariables : List (String × String)),
      (createEnvironmentVariableRelationships resourceMap envMap endpointMap
          accountId awsRegion envVariables =
        (envVariables.map (·.2)).flatMap
          (envRelationshipsForValue resourceMap envMap endpointMap accountId awsRegion)) ∧
      (∀ (val id : String) (res : LookupResource),
        jsGet resourceMap val = none →
        envResolveId envMap endpointMap accountId awsRegion val = some id →
        jsGet resourceMap id = some res →
        envRelationshipsForValue resourceMap envMap endpointMap accountId awsRegion val =
          (if res.resourceId ≠ accountId ∧
              res.resourceType ≠ AWS_S3_ACCOUNT_PUBLIC_ACCESS_BLOCK
           then [createAssociatedRelationship (some res.resourceType) { arn := some id }]
           else [])) := by
  intro resourceMap envMap endpointMap accountId awsRegion envVariables
  refine ⟨createEnvironmentVariableRelationships_eq_flatMap _ _ _ _ _ _, ?_⟩
  intro val id res hdir hres hresm
  unfold envRelationshipsForValue
  simp only [hdir, hres, hresm]
  by_cases hcond : res.resourceId ≠ accountId ∧
      res.resourceType ≠ AWS_S3_ACCOUNT_PUBLIC_ACCESS_BLOCK
  · rw [if_pos hcond, if_pos (by simp [hcond.1, hcond.2])]
  · rw [if_neg hcond, if_neg (by simpa using hcond)]

/-- Witness for C2 amended: a value `x` resolving via the resourceId key to
a lambda function whose resourceId differs from the account id; exactly one
associated-with relationship is produced. -/
theorem C2_amended_witness :
    (jsGet [("arn:l", c23LambdaResource)] "x" = none ∧
      envResolveId [("x_A1_R1", "arn:l")] [] "A1" "R1" "x" = some "arn:l" ∧
      jsGet [("arn:l", c23LambdaResource)] "arn:l" = some c23LambdaResource) ∧
    envRelationshipsForValue [("arn:l", c23LambdaResource)] [("x_A1_R1", "arn:l")] []
        "A1" "R1" "x" =
      (if c23LambdaResource.resourceId ≠ "A1" ∧
          c23LambdaResource.resourceType ≠ AWS_S3_ACCOUNT_PUBLIC_ACCESS_BLOCK
       then [createAssociatedRelationship (some c23LambdaResource.resourceType)
              { arn := some "arn:l" }]
       else []) := by
  refine ⟨⟨by decide, by decide, by decide⟩, ?_⟩
  exact (C2_amended [("arn:l", c23LambdaResource)] [("x_A1_R1", "arn:l")] [] "A1" "R1"
    [("DB", "x")]).2 "x" "arn:l" c23LambdaResource (by decide) (by decide) (by decide)

/-- Claim C3, amended: restricted to variable values that are not direct
ARN matches, environment-variable inference never returns a relationship
whose target resource has the account-public-access-block type, nor one
whose target resourceId equals the owning account id.  (Self-edges, and
edges to the public-access-block resource via a direct ARN match, are
possible — see the counterexample.) -/
theorem C3_amended :
    ∀ (resourceMap : JsMap LookupResource) (envMap endpointMap : JsMap String)
      (accountId awsRegion : String) (envVariables : List (String × String)),
      (∀ v ∈ envVariables.map (·.2), jsGet resourceMap v = none) →
      ∀ rel ∈ createEnvironmentVariableRelationships resourceMap envMap endpointMap
          accountId awsRegion envVariables,
        ∀ (id : String) (res : LookupResource),
          rel.arn = some id → jsGet resourceMap id = some res →
          res.resourceType ≠ AWS_S3_ACCOUNT_PUBLIC_ACCESS_BLOCK ∧
            res.resourceId ≠ accountId := by
  intro resourceMap envMap endpointMap accountId awsRegion envVariables hnodir rel hrel
    id res harn hres
  rw [createEnvironmentVariableRelationships_eq_flatMap] at hrel
  rcases List.mem_flatMap.mp hrel with ⟨v, hv, hmem⟩
  have hvd := hnodir v hv
  unfold envRelationshipsForValue at hmem
  simp only [hvd] at hmem
  rcases hresolve : envResolveId envMap endpointMap accountId awsRegion v with _ | i
  · simp only [hresolve] at hmem
    simp at hmem
  · simp only [hresolve] at hmem
    rcases hresm : jsGet resourceMap i with _ | res'
    · simp only [hresm] at hmem
      simp at hmem
    · simp only [hresm] at hmem
      split at hmem
      · rename_i hcond
        simp only [List.mem_singleton] at hmem
        have harn' : rel.arn = some i := by
          rw [hmem]
          rfl
        have hii : i = id := by
          rw [harn'] at harn
          injection harn
        subst hii
        have hresres : res = res' := by
          rw [hresm] at hres
          injection hres with h
          exact h.symm
        subst hresres
        simp only [bne_iff_ne, Bool.and_eq_true] at hcond
        exact ⟨hcond.2, hcond.1⟩
      · simp at hmem

/-- Witness for C3 amended: the same single-variable lookup resolution as
the C2 witness; the produced relationship satisfies both exclusions. -/
theorem C3_amended_witness :
    ((∀ v ∈ ([("DB", "x")] : List (String × String)).map (·.2),
        jsGet [("arn:l", c23LambdaResource)] v = none) ∧
      createAssociatedRelationship (some c23LambdaResource.resourceType)
          { arn := some "arn:l" } ∈
        createEnvironmentVariableRelationships [("arn:l", c23LambdaResource)]
          [("x_A1_R1", "arn:l")] [] "A1" "R1" [("DB", "x")] ∧
      (createAssociatedRelationship (some c23LambdaResource.resourceType)
          { arn := some "arn:l" }).arn = some "arn:l" ∧
      jsGet [("arn:l", c23LambdaResource)] "arn:l" = some c23LambdaResource) ∧
    (c23LambdaResource.resourceType ≠ AWS_S3_ACCOUNT_PUBLIC_ACCESS_BLOCK ∧
      c23LambdaResource.resourceId ≠ "A1") := by
  refine ⟨⟨by decide, by decide, by decide, by decide⟩, ?_⟩
  exact C3_amended [("arn:l", c23LambdaResource)] [("x_A1_R1", "arn:l")] [] "A1" "R1"
    [("DB", "x")] (by decide)
    (createAssociatedRelationship (some c23LambdaResource.resourceType) { arn := some "arn:l" })
    (by decide) "arn:l" c23LambdaResource (by decide) (by decide)

/-- Claim C6: the dual-store resource processor runs the search-index
mutation first on the whole batch, runs the graph-store mutation on exactly
the items whose ids are not in the `unprocessedResources` list, and (when
the index rejected something that was in the batch) throws a typed error
carrying exactly the rejected items; those items are collected into
`failedStores` and `failedDeletes` by the batch driver and the persister. -/
theorem C6_dual_store_coordination :
    (∀ (α : Type) (getId : α → String) (unp : List String) (resources : List α),
        (createResourceProcessor getId unp resources).1 =
          [StoreCall.search resources,
            StoreCall.graph (resources.filter (fun x => !(unp.contains (getId x))))] ∧
        (∀ x ∈ resources.filter (fun x => !(unp.contains (getId x))),
            unp.contains (getId x) = false) ∧
        (createResourceProcessor getId unp resources).2 =
          (if (resources.filter (fun x => unp.contains (getId x))).isEmpty
            then none else some (resources.filter (fun x => unp.contains (getId x)))) ∧
        ((∀ u ∈ unp, ∃ x ∈ resources, getId x = u) → unp ≠ [] →
          ∃ fails, (createResourceProcessor getId unp resources).2 = some fails ∧
            fails ≠ [])) ∧
    (∀ (indexResponse : List StoreObject → List String) (batchSize : Nat)
        (resources batch : List StoreObject) (x : StoreObject),
        batch ∈ resources.toChunks batchSize → x ∈ batch →
        (indexResponse batch).contains x.id = true →
        x.id ∈ (persistResourcesAndRelationships { errors := [] } { errors := [] }
          (processResourceBatches (·.id) indexResponse batchSize resources)
          { errors := [] } { errors := [] }).failedStores) ∧
    (∀ (indexResponse : List String → List String) (batchSize : Nat)
        (resourceIds batch : List String) (x : String),
        batch ∈ resourceIds.toChunks batchSize → x ∈ batch →
        (indexResponse batch).contains x = true →
        x ∈ (persistResourcesAndRelationships
          (processResourceBatches (fun s => s) indexResponse batchSize resourceIds)
          { errors := [] } { errors := [] } { errors := [] } { errors := [] }).failedDeletes) := by
  have hproc : ∀ (α : Type) (getId : α → String) (unp : List String) (resources : List α),
      createResourceProcessor getId unp resources =
        ([StoreCall.search resources,
          StoreCall.graph (resources.filter (fun x => !(unp.contains (getId x))))],
          if (resources.filter (fun x => unp.contains (getId x))).isEmpty
            then none else some (resources.filter (fun x => unp.contains (getId x)))) := by
    intro α getId unp resources
    unfold createResourceProcessor
    rw [List.partition_eq_filter_filter]
    simp [Function.comp_def]
  refine ⟨fun α getId unp resources => ⟨?_, ?_, ?_, ?_⟩, ?_, ?_⟩
  · rw [hproc]
  · intro x hx
    have := (List.mem_filter.mp hx).2
    simpa using this
  · rw [hproc]
  · intro hcover hne
    rcases List.exists_mem_of_ne_nil unp hne with ⟨u, hu⟩
    rcases hcover u hu with ⟨x, hx, hxu⟩
    have hxr : x ∈ resources.filter (fun x => unp.contains (getId x)) :=
      List.mem_filter.mpr ⟨hx, by rw [hxu]; exact (list_contains_iff unp u).mpr hu⟩
    have hnonempty : (resources.filter (fun x => unp.contains (getId x))).isEmpty = false := by
      rcases hl : resources.filter (fun x => unp.contains (getId x)) with _ | ⟨y, ys⟩
      · rw [hl] at hxr; simp at hxr
      · first
        | (rw [hl]; rfl)
        | simp [hl]
    refine ⟨resources.filter (fun x => unp.contains (getId x)), ?_, ?_⟩
    · rw [hproc]
      simp only
      rw [if_neg (by rw [hnonempty]; exact Bool.false_ne_true)]
    · intro hc
      rw [hc] at hxr
      simp at hxr
  · intro indexResponse batchSize resources batch x hb hx hcont
    have hrej : x ∈ batch.filter (fun y => (indexResponse batch).contains y.id) :=
      List.mem_filter.mpr ⟨hx, hcont⟩
    have hnonempty :
        (batch.filter (fun y => (indexResponse batch).contains y.id)).isEmpty = false := by
      rcases hl : batch.filter (fun y => (indexResponse batch).contains y.id) with _ | _
      · rw [hl] at hrej; simp at hrej
      · first
        | (rw [hl]; rfl)
        | simp [hl]
    have herr : ({ item := batch.filter (fun y => (indexResponse batch).contains y.id) } :
        PoolError (List StoreObject)) ∈
        (processResourceBatches (·.id) indexResponse batchSize resources).errors := by
      unfold processResourceBatches
      refine List.mem_filterMap.mpr ⟨batch, hb, ?_⟩
      rw [hproc]
      simp only
      rw [if_neg (by rw [hnonempty]; exact Bool.false_ne_true)]
      rfl
    unfold persistResourcesAndRelationships
    simp only
    refine List.mem_flatMap.mpr ⟨_, herr, List.mem_map.mpr ⟨x, hrej, rfl⟩⟩
  · intro indexResponse batchSize resourceIds batch x hb hx hcont
    have hrej : x ∈ batch.filter (fun y => (indexResponse batch).contains y) :=
      List.mem_filter.mpr ⟨hx, hcont⟩
    have hnonempty :
        (batch.filter (fun y => (indexResponse batch).contains y)).isEmpty = false := by
      rcases hl : batch.filter (fun y => (indexResponse batch).contains y) with _ | _
      · rw [hl] at hrej; simp at hrej
      · first
        | (rw [hl]; rfl)
        | simp [hl]
    have herr : ({ item := batch.filter (fun y => (indexResponse batch).contains y) } :
        PoolError (List String)) ∈
        (processResourceBatches (fun s => s) indexResponse batchSize resourceIds).errors := by
      unfold processResourceBatches
      refine List.mem_filterMap.mpr ⟨batch, hb, ?_⟩
      rw [hproc]
      simp only
      rw [if_neg (by rw [hnonempty]; exact Bool.false_ne_true)]
      rfl
    unfold persistResourcesAndRelationships
    simp only
    exact List.mem_flatMap.mpr ⟨_, herr, hrej⟩

/-- Witness for C6: a batch `[arn:a, arn:b]` whose index response rejects
`arn:b`: a typed error is thrown carrying a non-empty failure list, and
`arn:b` lands in `failedStores`; the analogous delete batch puts the
rejected id in `failedDeletes`. -/
theorem C6_witness :
    ((∀ u ∈ ["arn:b"], ∃ x ∈ [c6StoreA, c6StoreB], x.id = u) ∧ (["arn:b"] ≠ ([] : List String)) ∧
      [c6StoreA, c6StoreB] ∈ ([c6StoreA, c6StoreB] : List StoreObject).toChunks 10 ∧
      c6StoreB ∈ [c6StoreA, c6StoreB] ∧
      (["arn:b"].contains c6StoreB.id = true)) ∧
    (∃ fails, (createResourceProcessor (fun x : StoreObject => x.id) ["arn:b"]
        [c6StoreA, c6StoreB]).2 = some fails ∧ fails ≠ []) ∧
    c6StoreB.id ∈ (persistResourcesAndRelationships { errors := [] } { errors := [] }
      (processResourceBatches (·.id) (fun _ => ["arn:b"]) 10 [c6StoreA, c6StoreB])
      { errors := [] } { errors := [] }).failedStores ∧
    ("x1" : String) ∈ (persistResourcesAndRelationships
      (processResourceBatches (fun s => s) (fun _ => ["x1"]) 10 ["x1", "x2"])
      { errors := [] } { errors := [] } { errors := [] } { errors := [] }).failedDeletes := by
  refine ⟨⟨by decide, by decide, by decide, by decide, by decide⟩, ?_, ?_, ?_⟩
  · exact (C6_dual_store_coordination.1 StoreObject (fun x => x.id) ["arn:b"]
      [c6StoreA, c6StoreB]).2.2.2 (by decide) (by decide)
  · exact C6_dual_store_coordination.2.1 (fun _ => ["arn:b"]) 10 [c6StoreA, c6StoreB]
      [c6StoreA, c6StoreB] c6StoreB (by decide) (by decide) (by decide)
  · exact C6_dual_store_coordination.2.2 (fun _ => ["x1"]) 10 ["x1", "x2"]
      ["x1", "x2"] "x1" (by decide) (by decide) (by decide)

/-- Claim C4, counterexample: the projection is not idempotent.  For the
resource `c4Resource` (which carries a `configuration` payload) the first
projection keeps `configuration` inside `properties`, but a second
projection of the save object loses it: `configuration` lives under the
`properties` key of the save object, which is not in `propertiesToKeep`.
So `createSaveObject (createSaveObject r)) differs from
`createSaveObject r`. -/
theorem C4_counterexample :
    (createSaveObject c4Digest c4Resource).bind (createSaveObject c4Digest) ≠
      createSaveObject c4Digest c4Resource := by
  intro h
  exact absurd (congrArg saveObjectHasConfiguration h) (by decide)

theorem createSaveObject_some_props {digest : String → String} {fields : List (String × JsVal)}
    {o : JsVal} (h : createSaveObject digest (.obj fields) = some o) :
    ∃ props, createProperties fields = some props := by
  unfold createSaveObject at h
  rcases hp : createProperties fields with _ | props
  · simp [hp] at h
  · exact ⟨props, rfl⟩

theorem createSaveObject_obj_eq (digest : String → String) (fields : List (String × JsVal))
    (o : JsVal) (props : List (String × JsVal))
    (hp : createProperties fields = some props)
    (h : createSaveObject digest (.obj fields) = some o) :
    o = .obj [
      ("id", getFieldOf fields "id"),
      ("md5Hash", .str (match getFieldOf fields "resourceType" with
        | .str rt =>
            if resourceTypesToHash.contains rt then digest (jsonStringify (.obj props))
            else ""
        | _ => "")),
      ("resourceId", getFieldOf fields "resourceId"),
      ("resourceName", getFieldOf fields "resourceName"),
      ("resourceType", getFieldOf fields "resourceType"),
      ("accountId", getFieldOf fields "accountId"),
      ("arn", getFieldOf fields "arn"),
      ("awsRegion", getFieldOf fields "awsRegion"),
      ("relationships",
        if (getFieldOf fields "relationships").isUndef then .arr []
        else getFieldOf fields "relationships"),
      ("properties", .obj props),
      ("tags",
        if (getFieldOf fields "tags").isUndef then .arr [] else getFieldOf fields "tags")] := by
  unfold createSaveObject at h
  simp only [hp, Option.some.injEq] at h
  exact h.symm

theorem if_isUndef_stable (x : JsVal) :
    (if (if x.isUndef then JsVal.arr [] else x).isUndef then JsVal.arr []
      else (if x.isUndef then JsVal.arr [] else x)) =
      (if x.isUndef then JsVal.arr [] else x) := by
  cases hc : x.isUndef
  · simp [hc]
  · simp [hc, JsVal.isUndef]

/-- Claim C4, amended: the save projection is idempotent only on the
top-level identity fields.  When both applications succeed, the second save
object agrees with the first on id, resourceId, resourceName, resourceType,
accountId, arn, awsRegion, relationships and tags; it does not agree on
`properties` (or `md5Hash`), because the flat properties of the first
projection live under the `properties` key, which the fixed keep-set does
not retain — see the counterexample. -/
theorem C4_amended :
    ∀ (digest : String → String) (r o1 o2 : JsVal),
      createSaveObject digest r = some o1 →
      createSaveObject digest o1 = some o2 →
      (o2.getField "id" = o1.getField "id" ∧
        o2.getField "resourceId" = o1.getField "resourceId" ∧
        o2.getField "resourceName" = o1.getField "resourceName" ∧
        o2.getField "resourceType" = o1.getField "resourceType" ∧
        o2.getField "accountId" = o1.getField "accountId" ∧
        o2.getField "arn" = o1.getField "arn" ∧
        o2.getField "awsRegion" = o1.getField "awsRegion" ∧
        o2.getField "relationships" = o1.getField "relationships" ∧
        o2.getField "tags" = o1.getField "tags") := by
  intro digest r o1 o2 h1 h2
  cases r with
  | undef => simp [createSaveObject] at h1
  | str s => simp [createSaveObject] at h1
  | arr xs => simp [createSaveObject] at h1
  | obj fields =>
      obtain ⟨props, hp⟩ := createSaveObject_some_props h1
      have ho1 := createSaveObject_obj_eq digest fields o1 props hp h1
      subst ho1
      obtain ⟨props2, hp2⟩ := createSaveObject_some_props h2
      have ho2 := createSaveObject_obj_eq digest _ o2 props2 hp2 h2
      subst ho2
      refine ⟨rfl, rfl, rfl, rfl, rfl, rfl, rfl, ?_, ?_⟩
      · simp [JsVal.getField, getFieldOf, List.find?, if_isUndef_stable]
      · simp [JsVal.getField, getFieldOf, List.find?, if_isUndef_stable]

/-- Witness for C4 amended: both projection stages of the concrete resource
succeed, and the identity fields survive the second projection. -/
theorem C4_amended_witness :
    (createSaveObject c4Digest c4Resource = some c4Stage1 ∧
      createSaveObject c4Digest c4Stage1 = some c4Stage2) ∧
    (c4Stage2.getField "id" = c4Stage1.getField "id" ∧
      c4Stage2.getField "resourceId" = c4Stage1.getField "resourceId" ∧
      c4Stage2.getField "resourceName" = c4Stage1.getField "resourceName" ∧
      c4Stage2.getField "resourceType" = c4Stage1.getField "resourceType" ∧
      c4Stage2.getField "accountId" = c4Stage1.getField "accountId" ∧
      c4Stage2.getField "arn" = c4Stage1.getField "arn" ∧
      c4Stage2.getField "awsRegion" = c4Stage1.getField "awsRegion" ∧
      c4Stage2.getField "relationships" = c4Stage1.getField "relationships" ∧
      c4Stage2.getField "tags" = c4Stage1.getField "tags") := by
  refine ⟨⟨rfl, rfl⟩, ?_⟩
  exact C4_amended c4Digest c4Resource c4Stage1 c4Stage2 rfl rfl

end WD
